import Mathlib

set_option maxHeartbeats 1000000

/-!
A shallow embedding of the FIRE ticket enrichment–routing core
(`engine.py`, `ai/geo.py`, `ai/nlp.py`, `ai/enricher.py`) and proofs about it.

Modelling conventions:
* Python strings are `List Char`; `String` literals are converted with `toList`.
* Python `str.lower`/`str.upper` are modelled for the alphabets occurring in
  this corpus (ASCII Latin, Russian Cyrillic, the nine Kazakh-specific
  letters); all other characters are fixed, as they are irrelevant here.
* Machine floats appear only inside the Haversine distance and `round(·, 2)`;
  both are abstracted as parameters (`GeoFns`), so every theorem quantifies
  over them.  City coordinates are exact decimal literals, modelled as `ℚ`.
* Fallible Python code is modelled with `PyResult`; a call to
  `GeoNormalizer.geocode` is modelled through its Python calling convention
  (`geocodeCall`), since the arity of the call site matters in this program.
* Wall-clock fields (`routing_ms`) are omitted from the trace model.
-/

namespace Fire

/-- Python whitespace (for `str.strip` and `\s`): the ASCII whitespace set. -/
def pySpace : List Char := [' ', '\t', '\n', '\r', '\x0b', '\x0c']

def isPySpace (c : Char) : Bool := pySpace.contains c

/-- Upper/lower case pairs for the alphabets used by this corpus:
ASCII Latin, Russian Cyrillic (А–Я, Ё) and the Kazakh-specific letters. -/
def casePairs : List (Char × Char) :=
  ("ABCDEFGHIJKLMNOPQRSTUVWXYZАБВГДЕЖЗИЙКЛМНОПРСТУФХЦЧШЩЪЫЬЭЮЯЁӘҒҚҢӨҰҮҺІ".toList).zip
    ("abcdefghijklmnopqrstuvwxyzабвгдежзийклмнопрстуфхцчшщъыьэюяёәғқңөұүһі".toList)

/-- Python `str.lower`, per character (restricted to `casePairs`). -/
def lowerChar (c : Char) : Char :=
  ((casePairs.find? (fun p => p.1 = c)).map (fun p => p.2)).getD c

/-- Python `str.upper`, per character (restricted to `casePairs`). -/
def upperChar (c : Char) : Char :=
  ((casePairs.find? (fun p => p.2 = c)).map (fun p => p.1)).getD c

def lowerL (s : List Char) : List Char := s.map lowerChar

def upperL (s : List Char) : List Char := s.map upperChar

/-- Python `str.strip()` (both ends). -/
def pyStrip (s : List Char) : List Char :=
  ((s.dropWhile isPySpace).reverse.dropWhile isPySpace).reverse

/-- Python substring test `needle in hay`. -/
def containsKw (hay needle : List Char) : Bool := decide (needle <:+: hay)

/-- `needle` occurs in `hay` starting at index `i` (regex matching helper). -/
def occursAt (hay needle : List Char) (i : Nat) : Bool :=
  needle.isPrefixOf (hay.drop i)

/-! ## `ai/geo.py` — offline geocoding -/

/-- `CITY_COORDS` of `ai/geo.py`, in source order; coordinates exact. -/
def CITY_COORDS : List (String × ℚ × ℚ) :=
  [ ("астана", 51.1694, 71.4491)
  , ("алматы", 43.2389, 76.8897)
  , ("шымкент", 42.3417, 69.5901)
  , ("караганда", 49.8060, 73.0850)
  , ("усть-каменогорск", 49.9483, 82.6275)
  , ("семей", 50.4111, 80.2275)
  , ("павлодар", 52.2870, 76.9674)
  , ("костанай", 53.2145, 63.6246)
  , ("кокшетау", 53.2833, 69.3833)
  , ("петропавловск", 54.8753, 69.1620)
  , ("орал", 51.2333, 51.3667)
  , ("атырау", 47.1167, 51.8833)
  , ("актау", 43.6532, 51.1975)
  , ("актобе", 50.2839, 57.1660)
  , ("тараз", 42.9000, 71.3667)
  , ("кызылорда", 44.8528, 65.5092) ]

/-- `ALIASES` of `ai/geo.py`, in source order. -/
def ALIASES : List (String × String) :=
  [ ("нур-султан", "астана")
  , ("нурсултан", "астана")
  , ("nur-sultan", "астана")
  , ("nur sultan", "астана")
  , ("astana", "астана")
  , ("almaty", "алматы")
  , ("shymkent", "шымкент")
  , ("oskemen", "усть-каменогорск")
  , ("oскемен", "усть-каменогорск")
  , ("өскемен", "усть-каменогорск")
  , ("ust-kamenogorsk", "усть-каменогорск")
  , ("ust kamenogorsk", "усть-каменогорск")
  , ("усть каменогорск", "усть-каменогорск")
  , ("устькаменогорск", "усть-каменогорск")
  , ("karaganda", "караганда")
  , ("pavlodar", "павлодар")
  , ("kostanay", "костанай")
  , ("kokshetau", "кокшетау")
  , ("petropavlovsk", "петропавловск")
  , ("atyrau", "атырау")
  , ("aktau", "актау")
  , ("aktobe", "актобе")
  , ("taraz", "тараз")
  , ("kyzylorda", "кызылорда")
  , ("уральск", "орал")
  , ("oral", "орал")
  , ("uralsk", "орал") ]

/-- The character class kept by `_TRASH_RE` (`[0-9a-zA-Zа-яА-ЯёЁ\-\s]`);
everything else is replaced by a space. -/
def keepChar (c : Char) : Bool :=
  ('0' ≤ c && c ≤ '9') || ('a' ≤ c && c ≤ 'z') || ('A' ≤ c && c ≤ 'Z') ||
  ('а' ≤ c && c ≤ 'я') || ('А' ≤ c && c ≤ 'Я') || c = 'ё' || c = 'Ё' ||
  c = '-' || isPySpace c

/-- If `w` occurs at the start of `t` followed by at least one whitespace
character, return the remainder after the (greedy) whitespace run. -/
def afterWordSpace (t w : List Char) : Option (List Char) :=
  if w.isPrefixOf t then
    match t.drop w.length with
    | [] => none
    | c :: r => if isPySpace c then some ((c :: r).dropWhile isPySpace) else none
  else none

/-- `_PREFIX_RE.sub("", s)` — remove a leading `\s*(г\.|город|city)\s+`. -/
def dropCityWord (s : List Char) : List Char :=
  let t := s.dropWhile isPySpace
  match afterWordSpace t "г.".toList with
  | some r => r
  | none =>
    match afterWordSpace t "город".toList with
    | some r => r
    | none =>
      match afterWordSpace t "city".toList with
      | some r => r
      | none => s

/-- Fuelled scanner for `_DASH_SPACES_RE.sub("-", s)`.  Each recursive step
consumes at least one character, so fuel `s.length` is always enough; fuel
keeps the recursion structural (hence kernel-reducible). -/
def dashCollapseF : Nat → List Char → List Char
  | _, [] => []
  | 0, s => s
  | fuel + 1, c :: cs =>
    match (c :: cs).dropWhile isPySpace with
    | '-' :: r => '-' :: dashCollapseF fuel (r.dropWhile isPySpace)
    | _ => c :: dashCollapseF fuel cs

/-- `_DASH_SPACES_RE.sub("-", s)` — each `\s*-\s*` span becomes `"-"`. -/
def dashCollapse (s : List Char) : List Char := dashCollapseF s.length s

/-- Fuelled scanner for `_SPACES_RE.sub(" ", s)`. -/
def spaceCollapseF : Nat → List Char → List Char
  | _, [] => []
  | 0, s => s
  | fuel + 1, c :: cs =>
    if isPySpace c then ' ' :: spaceCollapseF fuel (cs.dropWhile isPySpace)
    else c :: spaceCollapseF fuel cs

/-- `_SPACES_RE.sub(" ", s)` — each `\s+` run becomes a single space. -/
def spaceCollapse (s : List Char) : List Char := spaceCollapseF s.length s

/-- The 9-letter Kazakh→Russian fold at the end of `normalise`. -/
def kazakhFold (s : List Char) : List Char :=
  s.map (fun c =>
    if c = 'қ' then 'к' else if c = 'ө' then 'о' else if c = 'ү' then 'у'
    else if c = 'ұ' then 'у' else if c = 'ә' then 'а' else if c = 'ң' then 'н'
    else if c = 'ғ' then 'г' else if c = 'һ' then 'х' else if c = 'і' then 'и'
    else c)

/-- `GeoNormalizer.normalise` (`ai/geo.py` lines 102–134). -/
def normalise (text : List Char) : List Char :=
  if text = [] then []
  else
    let s := lowerL (pyStrip text)
    let s := dropCityWord s
    let s := s.map (fun c => if c = '—' ∨ c = '–' then '-' else c)
    let s := s.map (fun c => if keepChar c then c else ' ')
    let s := dashCollapse s
    let s := pyStrip (spaceCollapse s)
    let s := s.map (fun c => if c = 'ё' then 'е' else c)
    kazakhFold s

/-- Exact lookup in `CITY_COORDS`. -/
def cityLookup (key : List Char) : Option (ℚ × ℚ) :=
  (CITY_COORDS.find? (fun p => p.1.toList = key)).map (fun p => p.2)

/-- The conservative bidirectional substring pass of `geocode`. -/
def fuzzyLookup (key : List Char) : Option (ℚ × ℚ) :=
  (CITY_COORDS.find? (fun p =>
    containsKw key p.1.toList || containsKw p.1.toList key)).map (fun p => p.2)

/-- `GeoNormalizer.geocode` (`ai/geo.py` lines 136–156): the method body,
which takes a single `city` argument. -/
def geocode (city : List Char) : Option (ℚ × ℚ) :=
  let key := normalise city
  if key = [] then none
  else
    match cityLookup key with
    | some c => some c
    | none =>
      match ALIASES.find? (fun p => p.1.toList = key) with
      | some a =>
        match cityLookup a.2.toList with
        | some c => some c
        | none => fuzzyLookup key
      | none => fuzzyLookup key

/-- Python runtime errors relevant to this program. -/
inductive PyErr
  | typeError
deriving DecidableEq, Repr

/-- Result of running Python code that can raise. -/
inductive PyResult (α : Type)
  | ok (a : α)
  | raise (e : PyErr)
deriving DecidableEq, Repr

/-- The Python calling convention for `GeoNormalizer.geocode`: the method
declares exactly one positional parameter besides `self` (`def geocode(self,
city)`), so a call with any other number of arguments raises `TypeError`. -/
def geocodeCall : List String → PyResult (Option (ℚ × ℚ))
  | [city] => .ok (geocode city.toList)
  | _ => .raise .typeError


/-! ## `ai/nlp.py` — spam detection, type classification, language detection -/

/-- `_MIN_SPAM_TEXT_LEN` — short texts cannot be spam by pattern. -/
def MIN_SPAM_TEXT_LEN : Nat := 200

/-- Boolean-existence semantics of a regex alternation `(a1|..)` as plain
substring search (patterns are searched case-insensitively, which we model by
searching the lowercased text for the lowercase literals). -/
def subMatch (s : List Char) (alts : List String) : Bool :=
  alts.any (fun a => containsKw s a.toList)

/-- Boolean-existence semantics of `(a1|a2|..).{0,gap}(b1|b2|..)`: some
alternative of `starts`, at most `gap` non-newline characters, then some
alternative of `stops`. -/
def gapMatch (s : List Char) (starts : List String) (gap : Nat)
    (stops : List String) : Bool :=
  (List.range (s.length + 1)).any fun i =>
    starts.any fun a =>
      occursAt s a.toList i &&
      (List.range (gap + 1)).any fun g =>
        (((s.drop (i + a.toList.length)).take g).all fun c => !(c = '\n')) &&
        stops.any fun b => occursAt s b.toList (i + a.toList.length + g)

/-- `wunder\s*digital`. -/
def wunderDigital (s : List Char) : Bool :=
  (List.range (s.length + 1)).any fun i =>
    occursAt s "wunder".toList i &&
    (List.range (s.length + 1)).any fun g =>
      (((s.drop (i + 6)).take g).all isPySpace) &&
      occursAt s "digital".toList (i + 6 + g)

/-- `_SPAM_PATTERNS` of `ai/nlp.py`, in source order. -/
def spamPatternHit (s : List Char) : Bool :=
  subMatch s ["тюльпан", "срезка", "питомник", "вашутино"] ||
  gapMatch s ["скидк", "акци", "распродаж"] 30 ["склад", "цен", "заказ", "прайс"] ||
  gapMatch s ["предлагаем", "предлагает"] 40 ["оборудован", "товар", "продукц", "услуг"] ||
  gapMatch s ["дайджест", "newsletter", "digest", "рассылк"] 20 ["digital", "маркет"] ||
  gapMatch s ["поздравляем"] 40 ["день рождения", "юбиле"] ||
  gapMatch s ["приглашаем", "приглашает"] 40 ["мероприяти", "вебинар", "конференц", "день инвестора"] ||
  gapMatch s ["минимальный заказ", "упаковка", "транспортировка", "отгрузка"] 60 ["шт", "руб", "кг"] ||
  subMatch s ["unsubscribe", "отписаться от рассылки"] ||
  gapMatch s ["2gis", "2гис"] 30 ["система", "карт", "появ"] ||
  gapMatch s ["iqas", "интеллектуальн"] 20 ["лига", "quiz", "квиз"] ||
  wunderDigital s

/-- `_SPAM_URL_RE` (`https?://\S{25,}`) match starting at index `i`; returns
the greedy match length. -/
def urlLenAt (s : List Char) (i : Nat) : Option Nat :=
  if occursAt s "https://".toList i then
    let run := ((s.drop (i + 8)).takeWhile (fun c => !isPySpace c)).length
    if 25 ≤ run then some (8 + run) else none
  else if occursAt s "http://".toList i then
    let run := ((s.drop (i + 7)).takeWhile (fun c => !isPySpace c)).length
    if 25 ≤ run then some (7 + run) else none
  else none

/-- `_SPAM_URL_RE.search` — some long URL occurs. -/
def hasLongUrl (s : List Char) : Bool :=
  (List.range (s.length + 1)).any fun i => (urlLenAt s i).isSome

/-- `len(_SPAM_URL_RE.findall(...))` — non-overlapping greedy matches,
scanning left to right (fuelled; each step advances by at least one). -/
def urlCountF : Nat → List Char → Nat → Nat
  | 0, _, _ => 0
  | fuel + 1, s, i =>
    if s.length ≤ i then 0
    else
      match urlLenAt s i with
      | some len => 1 + urlCountF fuel s (i + len)
      | none => urlCountF fuel s (i + 1)

def urlCount (s : List Char) : Nat := urlCountF s.length s 0

/-- `_is_spam` (`ai/nlp.py` lines 40–50).  Regexes carry `re.IGNORECASE`,
modelled by matching lowercase literals against the lowercased text. -/
def isSpam (text : List Char) : Bool :=
  let low := lowerL text
  if text.length < MIN_SPAM_TEXT_LEN && !hasLongUrl low then false
  else if 3 ≤ urlCount low then true
  else spamPatternHit low

/-- `_TYPE_KEYWORDS` of `ai/nlp.py`, categories and entries in source order. -/
def TYPE_KEYWORDS : List (String × List (String × Nat)) :=
  [ ("Жалоба",
      [ ("жалоба", 3)
      , ("жалуюсь", 3)
      , ("жалобу", 3)
      , ("недоволен", 2)
      , ("недовольна", 2)
      , ("недовольны", 2)
      , ("плохой сервис", 3)
      , ("плохое обслуживание", 3)
      , ("заблокировали", 3)
      , ("заблокирован", 3)
      , ("заблокированы", 3)
      , ("не имеете права", 3)
      , ("без причины", 2)
      , ("возмутительно", 3)
      , ("безобразие", 3)
      , ("возмущен", 2)
      , ("нарушаете", 2)
      , ("нарушение прав", 3)
      , ("это издевательство", 3)
      , ("издевательство", 2)
      , ("complaint", 3)
      , ("шагым", 3) ])
  , ("Смена данных",
      [ ("смена", 2)
      , ("смену", 2)
      , ("сменить", 2)
      , ("изменить", 2)
      , ("изменение", 2)
      , ("изменить данные", 3)
      , ("обновить", 2)
      , ("поменять", 2)
      , ("данные", 1)
      , ("реквизиты", 2)
      , ("адрес", 1)
      , ("телефон", 1)
      , ("номер телефона", 2)
      , ("новый номер", 3)
      , ("сменила номер", 3)
      , ("сменил номер", 3)
      , ("ауыстырып", 3)
      , ("жаңа нөмір", 3)
      , ("нөмірімді", 3)
      , ("нөміріне ауыстыр", 3)
      , ("удостоверение", 2)
      , ("уд.личности", 3)
      , ("уд личности", 3)
      , ("просрочен", 2)
      , ("просроченный", 2)
      , ("просрочено", 2)
      , ("верификаци", 1)
      , ("восстановить доступ", 2)
      , ("изменились данные", 3)
      , ("изменились мои данные", 3)
      , ("обновить данные", 3)
      , ("change data", 2)
      , ("update", 1)
      , ("деректерді өзгерту", 3)
      , ("менің деректер", 2) ])
  , ("Консультация",
      [ ("вопрос", 2)
      , ("как", 1)
      , ("подскажите", 2)
      , ("консультация", 3)
      , ("помогите", 1)
      , ("объясните", 2)
      , ("уточните", 2)
      , ("уточнить", 2)
      , ("можно ли", 2)
      , ("каким образом", 2)
      , ("имеет ли право", 4)
      , ("как можно", 2)
      , ("как мне", 2)
      , ("подскажи", 2)
      , ("объясни", 2)
      , ("помогите пожалуйста", 3)
      , ("question", 2)
      , ("help", 1)
      , ("how to", 2)
      , ("could you", 2)
      , ("please tell", 2)
      , ("please advise", 2)
      , ("кеңес", 3)
      , ("түсіндіріп", 3)
      , ("көмектесіп", 3) ])
  , ("Претензия",
      [ ("претензия", 3)
      , ("претензию", 3)
      , ("требую", 3)
      , ("верните", 3)
      , ("верните деньги", 3)
      , ("возврат", 2)
      , ("возвратите", 3)
      , ("компенсация", 3)
      , ("компенсацию", 3)
      , ("нарушение", 2)
      , ("нарушили", 2)
      , ("в суд", 3)
      , ("подам в суд", 3)
      , ("правоохранительные органы", 3)
      , ("полицию", 2)
      , ("списали", 2)
      , ("незаконно списали", 3)
      , ("не пришло", 2)
      , ("не зачислено", 2)
      , ("не поступило", 2)
      , ("не на моем счету", 3)
      , ("не дошло", 2)
      , ("аннулировать", 3)
      , ("дублирующие списания", 3)
      , ("официально заявляю", 3)
      , ("официальный ответ", 2)
      , ("afsa", 3)
      , ("аррфр", 3)
      , ("национальный банк", 2)
      , ("claim", 3)
      , ("талап", 3) ])
  , ("Неработоспособность приложения",
      [ ("не работает", 3)
      , ("не работают", 3)
      , ("приложение", 2)
      , ("не открывается", 3)
      , ("ошибка", 2)
      , ("выдает ошибку", 3)
      , ("выдаёт ошибку", 3)
      , ("баг", 3)
      , ("зависает", 3)
      , ("сбой", 3)
      , ("не могу войти", 3)
      , ("не удается войти", 3)
      , ("не удаётся войти", 3)
      , ("не могу зайти", 3)
      , ("не пускает", 2)
      , ("не приходит смс", 3)
      , ("смс не приходит", 3)
      , ("смс не приходят", 3)
      , ("код не приходит", 3)
      , ("пароль не принимает", 3)
      , ("не принимает пароль", 3)
      , ("не могу восстановить", 2)
      , ("восстановление пароля", 2)
      , ("войти не могу", 3)
      , ("выкидывает", 3)
      , ("не загружает", 3)
      , ("не грузится", 3)
      , ("сайт не открывается", 3)
      , ("постоянно выкидывает", 3)
      , ("app crash", 3)
      , ("error", 2)
      , ("something went wrong", 3)
      , ("қолданба", 2)
      , ("жұмыс істемейді", 3)
      , ("ашылмай", 3)
      , ("кірмеймін", 3) ])
  , ("Мошеннические действия",
      [ ("мошенник", 3)
      , ("мошенники", 3)
      , ("мошеннич", 3)
      , ("мошенничество", 3)
      , ("мошеннической", 3)
      , ("мошенническая", 3)
      , ("обман", 3)
      , ("обманули", 3)
      , ("украли", 3)
      , ("украли деньги", 3)
      , ("несанкционированный", 2)
      , ("без моего ведома", 3)
      , ("жертвой мошенников", 3)
      , ("жертва мошенников", 3)
      , ("подозрительн", 2)
      , ("взлом", 3)
      , ("взломали", 3)
      , ("таргетированной рекламы", 2)
      , ("от лица фридом", 3)
      , ("представляются сотрудниками", 3)
      , ("поддельный сертификат", 3)
      , ("действительный сертификат", 2)
      , ("fraud", 3)
      , ("scam", 3)
      , ("phishing", 3)
      , ("hacked", 3)
      , ("unauthorized", 3)
      , ("алаяқтық", 3) ])
  , ("Спам",
      [ ("спам", 3)
      , ("рассылка", 2)
      , ("нежелательный", 2)
      , ("реклама", 2)
      , ("рекламная рассылка", 3)
      , ("spam", 3)
      , ("advertisement", 2)
      , ("unwanted", 2)
      , ("спам-хабар", 3) ])
  ]

/-- `_DEFAULT_TYPE`. -/
def DEFAULT_TYPE : String := "Консультация"

/-- `_LOW_CONFIDENCE_THRESHOLD`. -/
def LOW_CONFIDENCE_THRESHOLD : Nat := 2

/-- Sum of weights of the keywords occurring in `low` (one category). -/
def scoreCat (low : List Char) (pairs : List (String × Nat)) : Nat :=
  pairs.foldl (fun acc kw => if containsKw low kw.1.toList then acc + kw.2 else acc) 0

/-- The per-category scores, in declaration order. -/
def catScores (low : List Char) : List (String × Nat) :=
  TYPE_KEYWORDS.map (fun p => (p.1, scoreCat low p.2))

/-- Python `max(scores, key=scores.get)`: the first maximum in order. -/
def argmaxFirst (l : List (String × Nat)) : String × Nat :=
  match l with
  | [] => (DEFAULT_TYPE, 0)
  | x :: xs => xs.foldl (fun b c => if b.2 < c.2 then c else b) x

/-- `TypeClassifier.classify` (`ai/nlp.py` lines 168–193). -/
def classify (text : List Char) : String :=
  if isSpam text then "Спам"
  else
    let stripped := pyStrip text
    if stripped.length < 5 then DEFAULT_TYPE
    else
      let best := argmaxFirst (catScores (lowerL stripped))
      if best.2 < LOW_CONFIDENCE_THRESHOLD then DEFAULT_TYPE else best.1

/-- `TypeClassifier.classify_with_score` (`ai/nlp.py` lines 195–206). -/
def classifyWithScore (text : List Char) : String × Nat :=
  if isSpam text then ("Спам", 99)
  else
    let best := argmaxFirst (catScores (lowerL text))
    (if LOW_CONFIDENCE_THRESHOLD ≤ best.2 then best.1 else DEFAULT_TYPE, best.2)

/-- `_KAZAKH_SPECIFIC_CHARS`. -/
def KAZAKH_SPECIFIC : List Char := "әіңғүұқөһ".toList

/-- `_LATIN_CHARS`. -/
def LATIN_CHARS : List Char := "abcdefghijklmnopqrstuvwxyz".toList

/-- `_CYRILLIC_CHARS`. -/
def CYRILLIC_CHARS : List Char := "абвгдеёжзийклмнопрстуфхцчшщъыьэюя".toList

/-- `_KAZAKH_WORDS` of `ai/nlp.py` (a set; duplicates in the source literal
are harmless for membership). -/
def KAZAKH_WORDS : List String :=
  [ "сәлеметсіз"
  , "сәлем"
  , "рахмет"
  , "өтінем"
  , "беруңіз"
  , "сұраймын"
  , "жүйесінде"
  , "болды"
  , "жатыр"
  , "керек"
  , "мүмкін"
  , "ашылмай"
  , "ауыстырып"
  , "нөмір"
  , "жаңа"
  , "алмадым"
  , "бар"
  , "ашуға"
  , "нөмірімді"
  , "деректерді"
  , "жібересіздер"
  , "ма"
  , "бе"
  , "сізге"
  , "маған"
  , "бізге"
  , "оларға"
  , "сіздің"
  , "менің"
  , "ашылмай"
  , "тіркелу"
  , "верификациядан"
  , "өткен"
  , "өтем"
  , "оттим"
  , "жатырмын"
  , "жатырмыз"
  , "куалигим"
  , "жеке"
  , "куаліг"
  , "мекенжай" ]

/-- The token class of `re.findall(r"[а-яёa-zәіңғүұқөһ]+", lowered)`. -/
def tokenChar (c : Char) : Bool :=
  ('а' ≤ c && c ≤ 'я') || c = 'ё' || ('a' ≤ c && c ≤ 'z') ||
  KAZAKH_SPECIFIC.contains c

/-- Maximal runs of `tokenChar` characters (the regex findall; fuelled). -/
def tokensF : Nat → List Char → List (List Char)
  | _, [] => []
  | 0, _ => []
  | fuel + 1, c :: cs =>
    if tokenChar c then
      ((c :: cs).takeWhile tokenChar) :: tokensF fuel ((c :: cs).dropWhile tokenChar)
    else tokensF fuel cs

def tokensOf (s : List Char) : List (List Char) := tokensF s.length s

/-- `LanguageDetector.detect` (`ai/nlp.py` lines 233–258).  The source counts
distinct tokens (a Python set); since the count is only compared with `≥ 1`,
counting occurrences is equivalent. -/
def detect (text : List Char) : String :=
  let low := lowerL text
  let kzCharCount := (low.filter (fun c => KAZAKH_SPECIFIC.contains c)).length
  if 1 ≤ kzCharCount then "KZ"
  else
    let kzWordCount :=
      ((tokensOf low).filter (fun t => KAZAKH_WORDS.any (fun w => w.toList = t))).length
    if 1 ≤ kzWordCount then "KZ"
    else
      let latinCount := (low.filter (fun c => LATIN_CHARS.contains c)).length
      let cyrillicCount := (low.filter (fun c => CYRILLIC_CHARS.contains c)).length
      if latinCount + cyrillicCount = 0 then "RU"
      else if cyrillicCount < latinCount then "ENG"
      else "RU"

/-! ## `ai/enricher.py` — priority -/

/-- `_HIGH_PRIORITY_TYPES`. -/
def HIGH_PRIORITY_TYPES : List String := ["Мошеннические действия", "Жалоба", "Претензия"]

/-- `_clamp`. -/
def clampI (v lo hi : Int) : Int := max lo (min hi v)

/-- `TicketEnricher._calculate_priority` (`ai/enricher.py` lines 175–195). -/
def calculatePriority (ai_type sentiment segment : String) : Int :=
  let s0 : Int := 5
  let s1 := if HIGH_PRIORITY_TYPES.contains ai_type then s0 + 3 else s0
  let s2 := if sentiment = "NEG" then s1 + 2 else s1
  let s3 := if upperL (pyStrip segment.toList) = "VIP".toList then s2 + 2 else s2
  clampI s3 1 10

/-! ## `engine.py` — the routing core -/

/-- `GeoNormalizer.distance_km` (Haversine over machine floats) and Python
`round(x, 2)` cannot be represented exactly; they are abstracted as
parameters, so every theorem below holds for an arbitrary pair. -/
structure GeoFns where
  dist : ℚ × ℚ → ℚ × ℚ → ℚ
  rnd2 : ℚ → ℚ

/-- A prepared manager row (output of `_prepare_managers`): exactly the
columns the routing core reads.  `skills` is the parsed `skills_set`
(membership-only, so a list models the Python set). -/
structure Manager where
  name : String
  office : String
  load : Int
  is_chief : Bool
  skills : List String
deriving DecidableEq, Repr

/-- A prepared ticket row.  `lat`/`lon` are `none` when the column is absent
or NaN; the `ai_*`/enrichment fields are `none` when the column is absent
(the `ticket.get(...)` defaults are applied inside `distribute`). -/
structure Ticket where
  guid : String
  city : String
  country : String
  segment : String
  region : String
  lat : Option ℚ
  lon : Option ℚ
  ai_type : Option String
  ai_lang : Option String
  priority : Option Int
  sentiment : Option String
  summary : Option String
  recommendation : Option String
deriving DecidableEq, Repr

/-- Static engine configuration: the abstracted float operations, the
prepared business-unit office column, and the prepared manager table. -/
structure Engine where
  g : GeoFns
  units : List String
  managers0 : List Manager

/-- The engine state mutated during a run: manager loads, the round-robin
counters (`rr_counters`), and `unknown_loc_counter`. -/
structure EngSt where
  managers : List Manager
  rr : List ((String × String) × Nat)
  unk : Nat
deriving DecidableEq, Repr

def initSt (e : Engine) : EngSt := { managers := e.managers0, rr := [], unk := 0 }

/-- First-occurrence deduplication (dict-key iteration order of
`_office_coords`; fuelled to stay structural). -/
def dedupFirstF : Nat → List String → List String
  | _, [] => []
  | 0, l => l
  | fuel + 1, x :: xs => x :: dedupFirstF fuel (xs.filter (fun y => ¬ y = x))

def dedupFirst (l : List String) : List String := dedupFirstF l.length l

/-- `FIREEngine.__init__`: the `_office_coords` cache — geocode every office
(one-argument call, which is fine), keeping those that resolve. -/
def officeCoords (e : Engine) : List (String × ℚ × ℚ) :=
  (dedupFirst e.units).filterMap
    (fun off => (geocode off.toList).map (fun c => (off, c)))

/-- Python `str.capitalize()`. -/
def capitalizePy (s : String) : String :=
  match s.toList with
  | [] => ""
  | c :: cs => String.mk (upperChar c :: lowerL cs)

/-- `FIREEngine._find_office`: first office whose lowercase name contains the
pattern, else `pattern.capitalize()`. -/
def findOffice (e : Engine) (pat : String) : String :=
  match e.units.find? (fun o => containsKw (lowerL o.toList) pat.toList) with
  | some o => o
  | none => capitalizePy pat

def astanaOffice (e : Engine) : String := findOffice e "астан"

def almatyOffice (e : Engine) : String := findOffice e "алмат"

/-- `FIREEngine._nearest_office_by_coords`: strict-minimum scan in
`_office_coords` order (ties keep the earlier office), rounded at the end. -/
def nearestOffice (e : Engine) (p : ℚ × ℚ) (exclude : Option String) :
    Option (String × ℚ) :=
  let best := (officeCoords e).foldl
    (fun b oc =>
      if some oc.1 = exclude then b
      else
        let d := e.g.dist p oc.2
        match b with
        | none => some (oc.1, d)
        | some bd => if d < bd.2 then some (oc.1, d) else some bd)
    none
  best.map (fun bd => (bd.1, e.g.rnd2 bd.2))

/-- The key order of `result.sort(key=lambda x: x[1])` with the original
index as tie-break: a stable sort by a total preorder equals any sort by the
index-augmented total order, so the algorithm choice is irrelevant;
insertion sort is used because the kernel can evaluate it. -/
def odProp (a b : Nat × (String × ℚ)) : Prop :=
  a.2.2 < b.2.2 ∨ (a.2.2 = b.2.2 ∧ a.1 ≤ b.1)

instance odPropDec : DecidableRel odProp := fun a b => by
  unfold odProp; infer_instance

/-- `FIREEngine._offices_sorted_by_distance`: rounded distances, ascending,
stable. -/
def officesByDist (e : Engine) (p : ℚ × ℚ) : List (String × ℚ) :=
  ((((officeCoords e).map (fun oc => (oc.1, e.g.rnd2 (e.g.dist p oc.2)))).enum).insertionSort
    odProp).map (fun x => x.2)

/-- Manager pools carry the original row index (the pandas index label),
because `_select_manager` writes back through `self.managers.at[...]`. -/
abbrev Pool := List (Nat × Manager)

/-- `self.managers[self.managers["office"] == office]`. -/
def poolOf (ms : List Manager) (office : String) : Pool :=
  ms.enum.filter (fun im => im.2.office = office)

/-- `FIREEngine._apply_filters` (`engine.py` lines 247–261). -/
def applyFilters (pool : Pool) (segment ai_type ai_lang : String) : Pool :=
  let s1 := if segment = "VIP" ∨ segment = "PRIORITY"
    then pool.filter (fun im => im.2.skills.contains "VIP") else pool
  let s2 := if ai_type = "Смена данных"
    then s1.filter (fun im => im.2.is_chief) else s1
  if ai_lang = "KZ" ∨ ai_lang = "ENG"
    then s2.filter (fun im => im.2.skills.contains ai_lang) else s2

/-- `sort_values(["load", "name"], kind="mergesort")`: ascending by
`(load, name)`, stable.  Pools are always in index order, so breaking ties
by the original index is exactly stability, and under this antisymmetric
total order every sorting algorithm produces the same list; insertion sort
is used because the kernel can evaluate it.  Python compares names by code
points, which is the lexicographic order on `List Char`. -/
def mgrProp (a b : Nat × Manager) : Prop :=
  a.2.load < b.2.load ∨
    (a.2.load = b.2.load ∧
      (a.2.name.toList < b.2.name.toList ∨
        (a.2.name.toList = b.2.name.toList ∧ a.1 ≤ b.1)))

instance mgrPropDec : DecidableRel mgrProp := fun a b => by
  unfold mgrProp; infer_instance

instance mgrPropTotal : IsTotal (Nat × Manager) mgrProp := by
  constructor
  intro a b
  unfold mgrProp
  rcases lt_trichotomy a.2.load b.2.load with h | h | h
  · exact Or.inl (Or.inl h)
  · rcases lt_trichotomy a.2.name.toList b.2.name.toList with h2 | h2 | h2
    · exact Or.inl (Or.inr ⟨h, Or.inl h2⟩)
    · rcases Nat.le_total a.1 b.1 with h3 | h3
      · exact Or.inl (Or.inr ⟨h, Or.inr ⟨h2, h3⟩⟩)
      · exact Or.inr (Or.inr ⟨h.symm, Or.inr ⟨h2.symm, h3⟩⟩)
    · exact Or.inr (Or.inr ⟨h.symm, Or.inl h2⟩)
  · exact Or.inr (Or.inl h)

instance mgrPropTrans : IsTrans (Nat × Manager) mgrProp := by
  constructor
  intro a b c hab hbc
  unfold mgrProp at hab hbc ⊢
  rcases hab with h1 | ⟨e1, h1⟩ <;> rcases hbc with h2 | ⟨e2, h2⟩
  · exact Or.inl (lt_trans h1 h2)
  · exact Or.inl (by rw [← e2]; exact h1)
  · exact Or.inl (by rw [e1]; exact h2)
  · refine Or.inr ⟨e1.trans e2, ?_⟩
    rcases h1 with h1 | ⟨f1, i1⟩ <;> rcases h2 with h2 | ⟨f2, i2⟩
    · exact Or.inl (lt_trans h1 h2)
    · exact Or.inl (by rw [← f2]; exact h1)
    · exact Or.inl (by rw [f1]; exact h2)
    · exact Or.inr ⟨f1.trans f2, le_trans i1 i2⟩

/-- `subset.sort_values(["load", "name"], kind="mergesort")`. -/
def sortPool (pool : Pool) : Pool := pool.insertionSort mgrProp

/-- `self.managers.at[idx, "load"] += 1`. -/
def bumpLoad : List Manager → Nat → List Manager
  | [], _ => []
  | m :: ms, 0 => { m with load := m.load + 1 } :: ms
  | m :: ms, Nat.succ i => m :: bumpLoad ms i

def maxI : List Int → Int
  | [] => 0
  | x :: xs => xs.foldl max x

def minI : List Int → Int
  | [] => 0
  | x :: xs => xs.foldl min x

/-- `self.rr_counters.get(rr_key, 0)`. -/
def rrGet (rr : List ((String × String) × Nat)) (k : String × String) : Nat :=
  ((rr.find? (fun p => p.1 = k)).map (fun p => p.2)).getD 0

/-- `self.rr_counters[rr_key] = v`. -/
def rrSet (rr : List ((String × String) × Nat)) (k : String × String) (v : Nat) :
    List ((String × String) × Nat) :=
  match rr.find? (fun p => p.1 = k) with
  | some _ => rr.map (fun p => if p.1 = k then (k, v) else p)
  | none => rr ++ [(k, v)]

/-- Dummy pool entry (only for the unreachable empty case and as a `getD`
default where the index is always in range). -/
def mgrDummy : Nat × Manager :=
  (0, { name := "", office := "", load := 0, is_chief := false, skills := [] })

/-- `FIREEngine._select_manager` (`engine.py` lines 263–281).  Callers
guarantee a non-empty subset (pandas `iloc[0]` would raise otherwise); the
`[]` branch returns a dummy and is never reached. -/
def selectManager (subset : Pool) (key : String × String) (st : EngSt) :
    (Nat × Manager) × EngSt :=
  match sortPool subset with
  | [] => (mgrDummy, st)
  | m0 :: rest =>
    let loads := (m0 :: rest).map (fun im => im.2.load)
    if 1 < (m0 :: rest).length ∧ 3 < maxI loads - minI loads then
      (m0, { st with managers := bumpLoad st.managers m0.1 })
    else
      let top2 := (m0 :: rest).take 2
      let idx := rrGet st.rr key
      let sel := top2.getD (idx % top2.length) m0
      (sel, { st with rr := rrSet st.rr key (idx + 1),
                      managers := bumpLoad st.managers sel.1 })

/-- `FIREEngine._get_ticket_coords` (`engine.py` lines 283–292); the final
line is the two-argument `self.geo.geocode(city, region)` call. -/
def getTicketCoords (t : Ticket) : PyResult (Option (ℚ × ℚ)) :=
  match t.lat, t.lon with
  | some la, some lo => .ok (some (la, lo))
  | _, _ => geocodeCall [t.city, t.region]

/-- `FIREEngine._filter_passes` (`engine.py` lines 343–377): the relaxation
ladder, strictest first. -/
def filterPasses (segment ai_type ai_lang : String) : List (Pool → Pool) :=
  let isVip := segment = "VIP" ∨ segment = "PRIORITY"
  let chiefReq := ai_type = "Смена данных"
  let langReq := ai_lang = "KZ" ∨ ai_lang = "ENG"
  let full := fun pool => applyFilters pool segment ai_type ai_lang
  let noLang := fun pool =>
    let s := if isVip then pool.filter (fun im => im.2.skills.contains "VIP") else pool
    if chiefReq then s.filter (fun im => im.2.is_chief) else s
  let vipOnly := fun pool =>
    if isVip then pool.filter (fun im => im.2.skills.contains "VIP") else pool
  let anyMgr := fun pool => pool
  [full] ++ (if langReq then [noLang] else []) ++
    (if isVip ∨ chiefReq then [vipOnly] else []) ++ [anyMgr]

/-- First pass (in ladder order) whose filtered pool is non-empty — the inner
loop of the no-coordinates branch of `_find_nearest_manager`. -/
def firstPassHit (passes : List (Pool → Pool)) (pool : Pool) : Option Pool :=
  match passes with
  | [] => none
  | p :: ps =>
    let sub := p pool
    if sub.isEmpty then firstPassHit ps pool else some sub

/-- The no-coordinates branch of `_find_nearest_manager`: try the two
capitals in order (offices outer, passes inner), skipping the current one. -/
def scanCapitals (st : EngSt) (offices : List String)
    (current segment ai_type ai_lang : String) :
    Option ((Nat × Manager) × String) × EngSt :=
  match offices with
  | [] => (none, st)
  | off :: rest =>
    if off = current then scanCapitals st rest current segment ai_type ai_lang
    else
      match firstPassHit (filterPasses segment ai_type ai_lang)
          (poolOf st.managers off) with
      | some sub =>
        (some ((selectManager sub (off, ai_lang) st).1, off),
          (selectManager sub (off, ai_lang) st).2)
      | none => scanCapitals st rest current segment ai_type ai_lang

/-- One relaxation pass over all offices by distance, skipping the current
office — the inner loop of the with-coordinates branch. -/
def scanOfficesOnce (st : EngSt) (p : Pool → Pool) (offices : List (String × ℚ))
    (current ai_lang : String) : Option (((Nat × Manager) × EngSt) × String × ℚ) :=
  match offices with
  | [] => none
  | od :: rest =>
    if od.1 = current then scanOfficesOnce st p rest current ai_lang
    else
      if (p (poolOf st.managers od.1)).isEmpty then
        scanOfficesOnce st p rest current ai_lang
      else some (selectManager (p (poolOf st.managers od.1)) (od.1, ai_lang) st, od.1, od.2)

/-- Run each pass across all offices before degrading to the next pass. -/
def scanPasses (st : EngSt) (passes : List (Pool → Pool))
    (offices : List (String × ℚ)) (current ai_lang : String) :
    Option (((Nat × Manager) × EngSt) × String × ℚ) :=
  match passes with
  | [] => none
  | p :: ps =>
    match scanOfficesOnce st p offices current ai_lang with
    | some r => some r
    | none => scanPasses st ps offices current ai_lang

/-- `FIREEngine._find_nearest_manager` (`engine.py` lines 298–341). -/
def findNearestManager (e : Engine) (st : EngSt) (t : Ticket)
    (current segment ai_type ai_lang : String) :
    PyResult (Option ((Nat × Manager) × String × Option ℚ) × EngSt) :=
  match getTicketCoords t with
  | .raise err => .raise err
  | .ok none =>
    match scanCapitals st [astanaOffice e, almatyOffice e] current segment ai_type ai_lang with
    | (some selOff, st1) => .ok (some (selOff.1, selOff.2, none), st1)
    | (none, st1) => .ok (none, st1)
  | .ok (some cpos) =>
    match scanPasses st (filterPasses segment ai_type ai_lang)
        (officesByDist e cpos) current ai_lang with
    | some (selSt, off, d) => .ok (some (selSt.1, off, some d), selSt.2)
    | none => .ok (none, st)

/-- `FIREEngine.get_office` (`engine.py` lines 200–241).  Step 2 is the
two-argument `self.geo.geocode(city_raw, region)` call, modelled through the
Python calling convention (`geocodeCall`); steps 3–5 are translated even
though step 2 raises whenever it is reached. -/
def getOffice (e : Engine) (st : EngSt) (t : Ticket) :
    PyResult (String × String × Option ℚ) × EngSt :=
  let country := String.mk (lowerL (pyStrip t.country.toList))
  let cityRaw := pyStrip t.city.toList
  let region := pyStrip t.region.toList
  -- steps 4 and 5
  let step45 : PyResult (String × String × Option ℚ) × EngSt :=
    let isKz := containsKw country.toList "kaz".toList ||
      containsKw country.toList "каз".toList
    let isUnk := country = "" ∨ country = "nan" ∨ country = "none"
    if ¬ isKz = true ∧ ¬ isUnk then
      let off := [astanaOffice e, almatyOffice e].getD (st.unk % 2) (astanaOffice e)
      (.ok (off, "50_50", none), { st with unk := st.unk + 1 })
    else
      (.ok (astanaOffice e, "default", none), st)
  -- step 3
  let step3 : PyResult (String × String × Option ℚ) × EngSt :=
    let cityNorm := normalise cityRaw
    match e.units.find? (fun off =>
      let offNorm := normalise off.toList
      (!offNorm.isEmpty) && (!cityNorm.isEmpty) &&
        (containsKw cityNorm offNorm || containsKw offNorm cityNorm)) with
    | some off => (.ok (off, "by_match", none), st)
    | none => step45
  -- step 2
  let step2 : PyResult (String × String × Option ℚ) × EngSt :=
    match geocodeCall [String.mk cityRaw, String.mk region] with
    | .raise err => (.raise err, st)
    | .ok (some cpos) =>
      match nearestOffice e cpos none with
      | some od => (.ok (od.1, "by_distance", some od.2), st)
      | none => step3
    | .ok none => step3
  -- step 1
  match t.lat, t.lon with
  | some la, some lo =>
    match nearestOffice e (la, lo) none with
    | some od => (.ok (od.1, "by_coords", some od.2), st)
    | none => step2
  | _, _ => step2

/-- The per-ticket decision trace (`routing_ms`, a wall-clock value, is not
modelled). -/
structure Trace where
  home_office : String
  office_reason : String
  distance_km : Option ℚ
  initial_pool : Nat
  after_vip : Option Nat := none
  after_chief : Option Nat := none
  after_lang : Option Nat := none
  escalation : Bool := false
  escalation_reason : Option String := none
  selected : Option String := none
  top2 : Option (List String) := none
  redirected_to_office : Option String := none
  redirected_distance_km : Option ℚ := none
deriving DecidableEq, Repr

/-- One output row of `distribute` (`FIREEngine._build_row`); the trace is
kept structured instead of JSON-serialised. -/
structure Row where
  guid : String
  ai_type : String
  ai_lang : String
  priority : Int
  sentiment : String
  summary : String
  recommendation : String
  office : String
  office_reason : String
  distance_km : Option ℚ
  manager : String
  trace : Trace
deriving DecidableEq, Repr

/-- `FIREEngine._build_row` (`engine.py` lines 461–481).  `segment` is a
parameter of the source function that is not stored in the row. -/
def buildRow (t : Ticket) (ai_type ai_lang : String) (priority : Int)
    (_segment office officeReason : String) (distKm : Option ℚ)
    (manager : String) (trace : Trace) : Row :=
  { guid := t.guid
    ai_type := ai_type
    ai_lang := ai_lang
    priority := priority
    sentiment := t.sentiment.getD ""
    summary := t.summary.getD ""
    recommendation := t.recommendation.getD ""
    office := office
    office_reason := officeReason
    distance_km := distKm
    manager := manager
    trace := trace }

/-- `ticket.get("ai_type", "Консультация")`. -/
def aiType (t : Ticket) : String := t.ai_type.getD "Консультация"

/-- `ticket.get("ai_lang", "RU")`. -/
def aiLang (t : Ticket) : String := t.ai_lang.getD "RU"

/-- One iteration of the `distribute` loop (`engine.py` lines 386–457). -/
def routeTicket (e : Engine) (st : EngSt) (t : Ticket) : PyResult (Row × EngSt) :=
  let ai_type := aiType t
  let ai_lang := aiLang t
  let priority := t.priority.getD 5
  let segment := t.segment
  match getOffice e st t with
  | (.raise err, _) => .raise err
  | (.ok (office, officeReason, distKm), st1) =>
    let pool := poolOf st1.managers office
    let subset := applyFilters pool segment ai_type ai_lang
    let trace0 : Trace := {
      home_office := office
      office_reason := officeReason
      distance_km := distKm
      initial_pool := pool.length
      after_vip := if segment = "VIP" ∨ segment = "PRIORITY" then some subset.length else none
      after_chief := if ai_type = "Смена данных" then some subset.length else none
      after_lang := if ai_lang = "KZ" ∨ ai_lang = "ENG" then some subset.length else none }
    if subset.isEmpty then
      let trace1 := { trace0 with
        escalation_reason := some "no_suitable_manager_in_home_office" }
      match findNearestManager e st1 t office segment ai_type ai_lang with
      | .raise err => .raise err
      | .ok (some (sel, nearOff, nearDist), st2) =>
        let trace := { trace1 with
          escalation := false
          redirected_to_office := some nearOff
          redirected_distance_km := nearDist
          selected := some sel.2.name }
        .ok (buildRow t ai_type ai_lang priority segment nearOff "nearest_office"
              nearDist sel.2.name trace, st2)
      | .ok (none, st2) =>
        let trace := { trace1 with escalation := true }
        .ok (buildRow t ai_type ai_lang priority segment office officeReason distKm
              "CAPITAL_ESCALATION" trace, st2)
    else
      let selSt := selectManager subset (office, ai_lang) st1
      let trace := { trace0 with
        escalation := false
        selected := some selSt.1.2.name
        top2 := some (((sortPool subset).take 2).map (fun im => im.2.name)) }
      .ok (buildRow t ai_type ai_lang priority segment office officeReason distKm
            selSt.1.2.name trace, selSt.2)

/-- `FIREEngine.distribute` (`engine.py` lines 383–459): sequential fold; a
raised exception aborts the whole run (Python semantics). -/
def distribute (e : Engine) (st : EngSt) (ts : List Ticket) :
    PyResult (List Row × EngSt) :=
  match ts with
  | [] => .ok ([], st)
  | t :: rest =>
    match routeTicket e st t with
    | .raise err => .raise err
    | .ok (row, st1) =>
      match distribute e st1 rest with
      | .raise err => .raise err
      | .ok (rows, st2) => .ok (row :: rows, st2)

/-! ## `_prepare_managers` (`engine.py` lines 118–149) -/

/-- `_CHIEF_POSITION_PATTERNS` (`engine.py` lines 24–29). -/
def CHIEF_POSITION_PATTERNS : List String := ["глав", "chief", "гл. спец", "гл спец"]

/-- `_is_chief` (`engine.py` lines 32–33). -/
def isChiefPos (posNorm : List Char) : Bool :=
  CHIEF_POSITION_PATTERNS.any
    (fun p => p.toList.isPrefixOf posNorm || containsKw posNorm p.toList)

/-- Python `str.replace(pat, rep)` for a non-empty pattern: non-overlapping,
left to right (fuelled to stay structural). -/
def replaceSubF : Nat → List Char → List Char → List Char → List Char
  | 0, s, _, _ => s
  | fuel + 1, s, pat, rep =>
    match s with
    | [] => []
    | c :: cs =>
      if pat.isPrefixOf (c :: cs) && !pat.isEmpty then
        rep ++ replaceSubF fuel ((c :: cs).drop pat.length) pat rep
      else c :: replaceSubF fuel cs pat rep

def replaceSub (s pat rep : List Char) : List Char := replaceSubF s.length s pat rep

/-- A raw manager row after the column-rename step of `_prepare_managers`:
string cells as read from the CSV.  `skills = none` models a NaN cell;
`load` is the value after `to_numeric(..., errors="coerce")` (`none` = NaN). -/
structure RawManager where
  name : String
  position : String
  skills : Option String
  office : String
  load : Option Int
deriving DecidableEq, Repr

/-- `FIREEngine._parse_skills` (`engine.py` lines 161–165).  The Python
result is a set; the list keeps split order (membership-only use). -/
def parseSkills (v : Option String) : List String :=
  match v with
  | none => []
  | some sv =>
    (((sv.toList.map (fun c => if c = ';' then ',' else c)).splitOn ',').filter
      (fun piece => !(pyStrip piece).isEmpty)).map
      (fun piece => String.mk (upperL (pyStrip piece)))

/-- The row-wise computation of `_prepare_managers` (`engine.py` lines
118–149): coerce `load` (NaN → 0), strip `name`/`office`, normalise the
position string, derive `is_chief`, parse `skills_set`.  One output row per
input row, in order. -/
def prepareManagers (rows : List RawManager) : List Manager :=
  rows.map (fun r =>
    let posNorm := pyStrip (replaceSub
      ((lowerL r.position.toList).map (fun c => if c = 'ё' then 'е' else c))
      "специалист".toList "спец".toList)
    { name := String.mk (pyStrip r.name.toList)
      office := String.mk (pyStrip r.office.toList)
      load := r.load.getD 0
      is_chief := isChiefPos posNorm
      skills := parseSkills r.skills })

/-! ## Concrete instances used by the theorems -/

/-- Distances abstracted away entirely (every pair at distance 0): legitimate
because `GeoFns` quantifies over the float-valued Haversine anyway. -/
def zeroGeo : GeoFns := { dist := fun _ _ => 0, rnd2 := id }

def mgrBolat : Manager :=
  { name := "Болат", office := "Алматы", load := 0, is_chief := false, skills := [] }

def mgrAsel : Manager :=
  { name := "Асель", office := "Астана", load := 0, is_chief := true, skills := ["VIP", "KZ"] }

def engineA : Engine := { g := zeroGeo, units := ["Астана", "Алматы"], managers0 := [mgrBolat] }

def engineB : Engine :=
  { g := zeroGeo, units := ["Астана", "Алматы"], managers0 := [mgrAsel, mgrBolat] }

def engineC : Engine := { g := zeroGeo, units := ["Астана", "Алматы"], managers0 := [] }

/-- A ticket with a known city but no explicit coordinates. -/
def ticketAstana : Ticket :=
  { guid := "t0"
    city := "Астана"
    country := "Казахстан"
    segment := "MASS"
    region := ""
    lat := none
    lon := none
    ai_type := none
    ai_lang := none
    priority := none
    sentiment := none
    summary := none
    recommendation := none }

/-- A Kazakh-language ticket with explicit coordinates. -/
def ticketKZ : Ticket :=
  { ticketAstana with
    guid := "t1"
    city := ""
    lat := some 51
    lon := some 71
    ai_lang := some "KZ" }

/-- A VIP change-of-data Kazakh-language ticket with explicit coordinates. -/
def ticketVip : Ticket :=
  { ticketAstana with
    guid := "t2"
    city := ""
    segment := "VIP"
    lat := some 51
    lon := some 71
    ai_lang := some "KZ"
    ai_type := some "Смена данных" }

/-- The priority formula asserted by the specification (segment bonus for
`VIP` **or** `PRIORITY`). -/
def claimPriorityC3 (ai_type sentiment segment : String) : Int :=
  clampI (5 + (if HIGH_PRIORITY_TYPES.contains ai_type then 3 else 0)
    + (if sentiment = "NEG" then 2 else 0)
    + (if segment = "VIP" ∨ segment = "PRIORITY" then 2 else 0)) 1 10

def rawIvanov : RawManager :=
  { name := "Иванов И.", position := "специалист", skills := some "KZ",
    office := "Астана", load := some 2 }

def rawIvanovDup : RawManager := { rawIvanov with load := some 7 }

/-! ## Round-robin concrete run (three successive selections, loads 3/3/5) -/

def mL1 : Manager := { name := "L1", office := "Астана", load := 3, is_chief := false, skills := [] }

def mL2 : Manager := { mL1 with name := "L2" }

def mL3 : Manager := { mL1 with name := "L3", load := 5 }

def c6st0 : EngSt := { managers := [mL1, mL2, mL3], rr := [], unk := 0 }

def c6key : String × String := ("Астана", "RU")

def c6pool1 : Pool := poolOf c6st0.managers "Астана"

def c6run1 : (Nat × Manager) × EngSt := selectManager c6pool1 c6key c6st0

def c6pool2 : Pool := poolOf c6run1.2.managers "Астана"

def c6run2 : (Nat × Manager) × EngSt := selectManager c6pool2 c6key c6run1.2

def c6pool3 : Pool := poolOf c6run2.2.managers "Астана"

def c6run3 : (Nat × Manager) × EngSt := selectManager c6pool3 c6key c6run2.2

/-- The language-detection rules as the specification words them, evaluated
in order: a Kazakh-specific letter forces `KZ`; else a Kazakh dictionary
word forces `KZ`; else strictly more Latin than Cyrillic letters gives
`ENG`; otherwise `RU`. -/
def specDetect (text : List Char) : String :=
  let low := lowerL text
  if low.any (fun c => KAZAKH_SPECIFIC.contains c) then "KZ"
  else if (tokensOf low).any (fun tk => KAZAKH_WORDS.any (fun w => w.toList = tk)) then "KZ"
  else if (low.filter (fun c => CYRILLIC_CHARS.contains c)).length <
          (low.filter (fun c => LATIN_CHARS.contains c)).length then "ENG"
  else "RU"

/-- A keyword suitable for strip-invariant matching: non-empty with
non-whitespace first and last characters. -/
def edgeOk (kw : List Char) : Bool :=
  !kw.isEmpty && !isPySpace kw.headI && !isPySpace kw.reverse.headI

/-! ## Definitions supporting the routing-invariant proofs -/

/-- The fields of a manager row that routing never mutates. -/
def mrec (m : Manager) : String × String × Bool × List String :=
  (m.name, m.office, m.is_chief, m.skills)

/-- Total load of a manager table. -/
def loadSum (ms : List Manager) : Int := (ms.map (fun m => m.load)).sum

/-- What claim C2 requires of the manager chosen for a ticket. -/
def hasManagerLike (ms : List Manager) (t : Ticket) (row : Row) : Prop :=
  ∃ m ∈ ms, m.name = row.manager ∧ m.office = row.office ∧
    ((t.segment = "VIP" ∨ t.segment = "PRIORITY") → m.skills.contains "VIP" = true) ∧
    (aiType t = "Смена данных" → m.is_chief = true) ∧
    ((aiLang t = "KZ" ∨ aiLang t = "ENG") → m.skills.contains (aiLang t) = true)


/-- What every output row of `distribute` satisfies, relative to the final
manager roster and the ticket it was produced from. -/
def rowOk (msFinal : List Manager) (t : Ticket) (r : Row) : Prop :=
  (r.trace.escalation = true → r.manager = "CAPITAL_ESCALATION") ∧
  (r.trace.escalation = false →
    (∃ m ∈ msFinal, m.name = r.manager ∧ m.office = r.office) ∧
    (r.trace.escalation_reason = none → hasManagerLike msFinal t r)) ∧
  (r.office_reason = "nearest_office" →
    r.trace.escalation_reason = some "no_suitable_manager_in_home_office" ∧
    r.trace.escalation = false)

/-- The single output row of `distribute engineA (initSt engineA) [ticketKZ]`:
no suitable manager in the home office, so the nearest-office fallback picks
Болат in Алматы even though the ticket's language KZ is not among his skills. -/
def c2row : Row :=
  { guid := "t1"
    ai_type := "Консультация"
    ai_lang := "KZ"
    priority := 5
    sentiment := ""
    summary := ""
    recommendation := ""
    office := "Алматы"
    office_reason := "nearest_office"
    distance_km := some 0
    manager := "Болат"
    trace := {
      home_office := "Астана"
      office_reason := "by_coords"
      distance_km := some 0
      initial_pool := 0
      after_vip := none
      after_chief := none
      after_lang := some 0
      escalation := false
      escalation_reason := some "no_suitable_manager_in_home_office"
      selected := some "Болат"
      top2 := none
      redirected_to_office := some "Алматы"
      redirected_distance_km := some 0 } }

def c2st : EngSt :=
  { managers := [{ mgrBolat with load := 1 }]
    rr := [(("Алматы", "KZ"), 1)]
    unk := 0 }

/-- The single output row of `distribute engineB (initSt engineB) [ticketVip]`
(a home-office assignment satisfying every required filter). -/
def c2wRow : Row :=
  { guid := "t2"
    ai_type := "Смена данных"
    ai_lang := "KZ"
    priority := 5
    sentiment := ""
    summary := ""
    recommendation := ""
    office := "Астана"
    office_reason := "by_coords"
    distance_km := some 0
    manager := "Асель"
    trace := {
      home_office := "Астана"
      office_reason := "by_coords"
      distance_km := some 0
      initial_pool := 1
      after_vip := some 1
      after_chief := some 1
      after_lang := some 1
      escalation := false
      escalation_reason := none
      selected := some "Асель"
      top2 := some ["Асель"]
      redirected_to_office := none
      redirected_distance_km := none } }

def c2wSt : EngSt :=
  { managers := [{ mgrAsel with load := 1 }, mgrBolat]
    rr := [(("Астана", "KZ"), 1)]
    unk := 0 }

def c4Row : Row := c2wRow

def c4St : EngSt := c2wSt

def c10row : Row := c2row

def c10st : EngSt := c2st

def c10sel : (Nat × Manager) × String × Option ℚ := ((0, mgrBolat), "Алматы", some 0)

/-- `clampI · 1 10` really lands in `[1, 10]`. -/
theorem clampI_one_ten (v : Int) : 1 ≤ clampI v 1 10 ∧ clampI v 1 10 ≤ 10 :=
  ⟨le_max_left 1 _, max_le (by norm_num) (min_le_left 10 v)⟩

/-! ## Theorems for the claims -/

/-- C1: the claim says `distribute` returns one assignment per ticket and
never raises, in particular on the home-office path that geocodes the
ticket's city and region.  The code disagrees: `get_office` calls
`self.geo.geocode(city_raw, region)` with two arguments while
`GeoNormalizer.geocode` accepts only `city`, so a ticket without explicit
coordinates makes the whole run raise `TypeError` instead of producing an
assignment. -/
theorem C1_distribute_raises_without_coords :
    distribute engineA (initSt engineA) [ticketAstana] = .raise .typeError := rfl

/-- C5: the claim says `geocode` accepts an optional region and consults it
when the city alone does not resolve.  The code's `geocode` accepts only the
city: for a city that does not resolve ("Покровка") and a region that would
("Астана"), the engine's two-argument call raises `TypeError` instead of
returning the region's coordinates. -/
theorem C5_geocode_has_no_region_argument :
    geocodeCall ["Покровка", "Астана"] = .raise .typeError ∧
    geocode "Покровка".toList = none ∧
    geocode "Астана".toList = some (51.1694, 71.4491) :=
  ⟨rfl, rfl, rfl⟩

/-- C3 counterexample: for segment `PRIORITY` the claimed formula gives
`5 + 2 = 7`, but `_calculate_priority` awards the segment bonus only for
`VIP`, returning `5`. -/
theorem C3_counterexample :
    calculatePriority "Консультация" "NEU" "PRIORITY" ≠
      claimPriorityC3 "Консультация" "NEU" "PRIORITY" := by decide

/-- C3 (amended): priority is 5, plus 3 for the Fraud/Complaint/Claim
categories, plus 2 for `NEG` sentiment, plus 2 when the trimmed uppercased
segment equals `VIP` (`PRIORITY` gets no bonus), clamped to `[1, 10]` — and
it always lies in `[1, 10]`. -/
theorem C3_priority_formula (ai_type sentiment segment : String) :
    calculatePriority ai_type sentiment segment =
      clampI (5 + (if HIGH_PRIORITY_TYPES.contains ai_type then 3 else 0)
        + (if sentiment = "NEG" then 2 else 0)
        + (if upperL (pyStrip segment.toList) = "VIP".toList then 2 else 0)) 1 10 ∧
    1 ≤ calculatePriority ai_type sentiment segment ∧
    calculatePriority ai_type sentiment segment ≤ 10 := by
  refine ⟨?_, (clampI_one_ten _).1, (clampI_one_ten _).2⟩
  unfold calculatePriority
  split_ifs <;> rfl

/-- C8 counterexample: two input rows with the same manager name both
survive `_prepare_managers`; nothing is deduplicated (the claimed
first-occurrence dedup would leave one row). -/
theorem C8_counterexample :
    (prepareManagers [rawIvanov, rawIvanovDup]).length = 2 ∧
    (prepareManagers [rawIvanov, rawIvanovDup]).map (fun m => m.name) =
      ["Иванов И.", "Иванов И."] := ⟨rfl, rfl⟩

/-- C8 (amended): `_prepare_managers` performs no deduplication (and records
no warning): each input row maps to exactly one prepared row, in order, so
rows with colliding names all survive. -/
theorem C8_prepare_keeps_all_rows (rows : List RawManager) :
    (prepareManagers rows).length = rows.length ∧
    (prepareManagers rows).map (fun m => m.name) =
      rows.map (fun r => String.mk (pyStrip r.name.toList)) := by
  refine ⟨?_, ?_⟩ <;> simp [prepareManagers]

/-! ## Supporting lemmas about sorting and selection -/

theorem sortPool_perm (pool : Pool) : (sortPool pool).Perm pool :=
  List.perm_insertionSort _ _

theorem sortPool_sorted (pool : Pool) : List.Sorted mgrProp (sortPool pool) :=
  List.sorted_insertionSort _ _

theorem mgrProp_load_le {a b : Nat × Manager} (h : mgrProp a b) :
    a.2.load ≤ b.2.load := by
  rcases h with h | ⟨e, _⟩
  · exact le_of_lt h
  · exact le_of_eq e

/-- If some entry has key `k`, the `rrSet` rewrite is found first. -/
theorem find?_map_rrSet (k : String × String) (v : Nat) :
    ∀ (rr : List ((String × String) × Nat)) (p : (String × String) × Nat),
      rr.find? (fun q => q.1 = k) = some p →
      (rr.map (fun q => if q.1 = k then (k, v) else q)).find?
        (fun q => q.1 = k) = some (k, v) := by
  intro rr
  induction rr with
  | nil => intro p h; simp at h
  | cons q qs ih =>
    intro p h
    by_cases hq : q.1 = k
    · simp [List.find?_cons, hq]
    · rw [List.find?_cons, decide_eq_false hq] at h
      simp only [List.map_cons, if_neg hq]
      rw [List.find?_cons, decide_eq_false hq]
      exact ih p h

/-- Updating a round-robin counter and reading it back. -/
theorem rrGet_rrSet_self (rr : List ((String × String) × Nat))
    (k : String × String) (v : Nat) : rrGet (rrSet rr k v) k = v := by
  unfold rrSet
  cases h : rr.find? (fun p => p.1 = k) with
  | none =>
    unfold rrGet
    rw [List.find?_append, h]
    simp
  | some p =>
    unfold rrGet
    rw [find?_map_rrSet k v rr p h]
    simp


/-- C6: `_select_manager` over a non-empty candidate set, sorted ascending by
(load, name): when the load spread exceeds 3 the head of the sort (a
least-loaded candidate) is picked and the round-robin counters are
untouched; otherwise the pick is `top2[counter mod |top2|]` where `top2` is
the first two sorted candidates and the `(office, language)`-keyed counter
is incremented.  Either way the pick is a member of the candidate set and
exactly its row's load is bumped. -/
theorem C6_weighted_round_robin (subset : Pool) (key : String × String)
    (st : EngSt) (hne : subset ≠ []) :
    (selectManager subset key st).1 ∈ subset ∧
    (selectManager subset key st).2.managers =
      bumpLoad st.managers (selectManager subset key st).1.1 ∧
    ((1 < subset.length ∧
        3 < maxI ((sortPool subset).map (fun im => im.2.load)) -
            minI ((sortPool subset).map (fun im => im.2.load))) →
      ((selectManager subset key st).1 = (sortPool subset).getD 0 mgrDummy ∧
       (∀ x ∈ subset, (selectManager subset key st).1.2.load ≤ x.2.load) ∧
       (selectManager subset key st).2.rr = st.rr)) ∧
    (¬ (1 < subset.length ∧
        3 < maxI ((sortPool subset).map (fun im => im.2.load)) -
            minI ((sortPool subset).map (fun im => im.2.load))) →
      ((selectManager subset key st).1 =
         ((sortPool subset).take 2).getD
           (rrGet st.rr key % ((sortPool subset).take 2).length) mgrDummy ∧
       rrGet (selectManager subset key st).2.rr key = rrGet st.rr key + 1)) := by
  have hperm := sortPool_perm subset
  have hsorted := sortPool_sorted subset
  cases hs : sortPool subset with
  | nil =>
    exact absurd (List.Perm.nil_eq (hs ▸ hperm)).symm hne
  | cons m0 rest =>
    have hlen : (m0 :: rest).length = subset.length := by
      rw [← hs]; exact hperm.length_eq
    have hmem_sorted : ∀ x ∈ (m0 :: rest), x ∈ subset := by
      intro x hx
      exact (hs ▸ hperm).mem_iff.mp hx
    rw [hs] at hsorted
    simp only [selectManager, hs]
    by_cases hbig : 1 < (m0 :: rest).length ∧
        3 < maxI ((m0 :: rest).map (fun im => im.2.load)) -
            minI ((m0 :: rest).map (fun im => im.2.load))
    · rw [if_pos hbig]
      refine ⟨hmem_sorted m0 (List.mem_cons_self _ _), rfl, ?_, ?_⟩
      · intro _
        refine ⟨rfl, ?_, rfl⟩
        intro x hx
        have hx' : x ∈ (m0 :: rest) := (hs ▸ hperm).symm.mem_iff.mp hx
        rcases List.mem_cons.mp hx' with rfl | hx'
        · exact le_refl _
        · exact mgrProp_load_le ((List.pairwise_cons.mp hsorted).1 x hx')
      · intro hc
        exact absurd ⟨hlen ▸ hbig.1, hbig.2⟩ hc
    · rw [if_neg hbig]
      have htop2len : 0 < ((m0 :: rest).take 2).length := by
        simp [List.length_take]
      have hidx : rrGet st.rr key % ((m0 :: rest).take 2).length <
          ((m0 :: rest).take 2).length := Nat.mod_lt _ htop2len
      have hretr : ((m0 :: rest).take 2).getD
          (rrGet st.rr key % ((m0 :: rest).take 2).length) m0 =
          ((m0 :: rest).take 2).getD
          (rrGet st.rr key % ((m0 :: rest).take 2).length) mgrDummy := by
        rw [List.getD_eq_getElem _ _ hidx, List.getD_eq_getElem _ _ hidx]
      refine ⟨?_, rfl, ?_, ?_⟩
      · apply hmem_sorted
        apply List.take_subset 2
        rw [List.getD_eq_getElem _ _ hidx]
        exact List.getElem_mem hidx
      · intro hc
        refine absurd ⟨?_, hc.2⟩ hbig
        rw [hlen]
        exact hc.1
      · intro _
        exact ⟨hretr, rrGet_rrSet_self st.rr key (rrGet st.rr key + 1)⟩



/-- C6 witness: same office+language key, candidates with loads 3, 3, 5 —
three successive selections pick the first, the second, then the first of
the (current) top two: counters 0, 1, 2; note the concrete managers picked
are L1, L1, L2 because loads mutate between the calls. -/
theorem C6_witness :
    c6run1.1.2.name = "L1" ∧ c6run2.1.2.name = "L1" ∧ c6run3.1.2.name = "L2" ∧
    c6run1.1 = ((sortPool c6pool1).take 2).getD (0 % 2) mgrDummy ∧
    c6run2.1 = ((sortPool c6pool2).take 2).getD (1 % 2) mgrDummy ∧
    c6run3.1 = ((sortPool c6pool3).take 2).getD (2 % 2) mgrDummy ∧
    rrGet c6run1.2.rr c6key = 1 ∧ rrGet c6run2.2.rr c6key = 2 ∧
    rrGet c6run3.2.rr c6key = 3 ∧
    c6run1.1 ∈ c6pool1 := by
  refine ⟨rfl, rfl, rfl, rfl, rfl, rfl, rfl, rfl, rfl, ?_⟩
  exact (C6_weighted_round_robin c6pool1 c6key c6st0 (by decide)).1



/-- A filtered count is at least 1 exactly when some element satisfies the
predicate. -/
theorem filter_pos_iff_any {α : Type} (p : α → Bool) (l : List α) :
    1 ≤ (l.filter p).length ↔ l.any p = true := by
  show 0 < (l.filter p).length ↔ l.any p = true
  rw [List.length_pos]
  constructor
  · intro h
    rcases List.exists_mem_of_ne_nil _ h with ⟨x, hx⟩
    rcases (List.mem_filter.mp hx) with ⟨hm, hp⟩
    exact List.any_eq_true.mpr ⟨x, hm, hp⟩
  · intro h
    rcases List.any_eq_true.mp h with ⟨x, hm, hp⟩
    intro hnil
    have : x ∈ l.filter p := List.mem_filter.mpr ⟨hm, hp⟩
    rw [hnil] at this
    exact List.not_mem_nil x this

/-- C7: `LanguageDetector.detect` implements exactly the ordered rules of
`specDetect` — in particular `KZ` wins over dominant Latin whenever one
Kazakh-specific letter occurs, and empty input yields `RU`. -/
theorem C7_detect_spec :
    (∀ text, detect text = specDetect text) ∧ detect [] = "RU" := by
  constructor
  · intro text
    simp only [detect, specDetect]
    by_cases h1 : (lowerL text).any (fun c => KAZAKH_SPECIFIC.contains c) = true
    · rw [if_pos ((filter_pos_iff_any _ _).mpr h1), if_pos h1]
    · rw [if_neg (fun hc => h1 ((filter_pos_iff_any _ _).mp hc)), if_neg h1]
      by_cases h2 : (tokensOf (lowerL text)).any
          (fun tk => KAZAKH_WORDS.any (fun w => w.toList = tk)) = true
      · rw [if_pos ((filter_pos_iff_any _ _).mpr h2), if_pos h2]
      · rw [if_neg (fun hc => h2 ((filter_pos_iff_any _ _).mp hc)), if_neg h2]
        by_cases h3 : ((lowerL text).filter (fun c => LATIN_CHARS.contains c)).length +
            ((lowerL text).filter (fun c => CYRILLIC_CHARS.contains c)).length = 0
        · rw [if_pos h3, if_neg (by omega)]
        · rw [if_neg h3]
  · rfl



/-- No case pair involves a whitespace character. -/
theorem casePairs_no_space :
    casePairs.all (fun q => !isPySpace q.1 && !isPySpace q.2) = true := by decide

/-- Lowercasing never turns whitespace into non-whitespace or vice versa. -/
theorem isPySpace_lowerChar (c : Char) : isPySpace (lowerChar c) = isPySpace c := by
  unfold lowerChar
  cases h : casePairs.find? (fun p => p.1 = c) with
  | none => rfl
  | some p =>
    have hmem := List.mem_of_find?_eq_some h
    have hc : p.1 = c := by simpa using List.find?_some h
    have h2 := (List.all_eq_true.mp casePairs_no_space) p hmem
    simp at h2
    simp only [Option.map_some', Option.getD_some]
    rw [h2.2, ← hc, h2.1]

/-- `strip` and `lower` commute. -/
theorem pyStrip_lowerL (s : List Char) : pyStrip (lowerL s) = lowerL (pyStrip s) := by
  have hfn : (fun c => isPySpace (lowerChar c)) = isPySpace := funext isPySpace_lowerChar
  unfold pyStrip lowerL
  rw [List.dropWhile_map]
  show ((List.map lowerChar _).reverse.dropWhile _).reverse = _
  rw [← List.map_reverse, List.dropWhile_map, ← List.map_reverse]
  simp only [Function.comp_def, hfn]




/-- Helper: an infix headed by a non-space character survives a leading
`dropWhile isPySpace`, whatever precedes it. -/
theorem infix_dropWhile_aux (k0 : Char) (kw b : List Char)
    (h0 : isPySpace k0 = false) :
    ∀ a : List Char, (k0 :: kw) <:+: List.dropWhile isPySpace (a ++ (k0 :: kw) ++ b) := by
  intro a
  induction a with
  | nil =>
    rw [List.nil_append, List.cons_append,
      List.dropWhile_cons_of_neg (by simp [h0])]
    exact ⟨[], b, by simp⟩
  | cons x a' ih =>
    rw [List.cons_append, List.cons_append]
    by_cases hx : isPySpace x = true
    · rw [List.dropWhile_cons_of_pos hx]
      simpa using ih
    · rw [List.dropWhile_cons_of_neg hx]
      exact ⟨x :: a', b, by simp⟩

/-- A non-space-headed infix survives `dropWhile isPySpace`. -/
theorem infix_dropWhile_of_head (k0 : Char) (kw l : List Char)
    (h0 : isPySpace k0 = false) (h : (k0 :: kw) <:+: l) :
    (k0 :: kw) <:+: l.dropWhile isPySpace := by
  rcases h with ⟨a, b, hab⟩
  rw [← hab]
  exact infix_dropWhile_aux k0 kw b h0 a


/-- The stripped string is an infix of the original. -/
theorem pyStrip_isInfix (u : List Char) : pyStrip u <:+: u := by
  unfold pyStrip
  have h1 : List.dropWhile isPySpace u <:+ u := List.dropWhile_suffix _
  have h2 : ((List.dropWhile isPySpace u).reverse.dropWhile isPySpace).reverse <+:
      (List.dropWhile isPySpace u).reverse.reverse :=
    List.reverse_prefix.mpr (List.dropWhile_suffix _)
  rw [List.reverse_reverse] at h2
  exact h2.isInfix.trans h1.isInfix

/-- For a keyword with non-space first and last characters, occurrence in the
stripped string is the same as occurrence in the original. -/
theorem infix_pyStrip_iff (kw u : List Char) (he : edgeOk kw = true) :
    kw <:+: pyStrip u ↔ kw <:+: u := by
  unfold edgeOk at he
  simp only [Bool.and_eq_true, Bool.not_eq_true'] at he
  obtain ⟨⟨hne, hh⟩, hl⟩ := he
  constructor
  · intro h
    exact h.trans (pyStrip_isInfix u)
  · intro h
    cases kw with
    | nil => simp at hne
    | cons k0 kw' =>
      simp only [List.headI_cons] at hh
      have step1 : (k0 :: kw') <:+: List.dropWhile isPySpace u :=
        infix_dropWhile_of_head k0 kw' u hh h
      have step2 : (k0 :: kw').reverse <:+: (List.dropWhile isPySpace u).reverse :=
        List.reverse_infix.mpr step1
      cases hrev : (k0 :: kw').reverse with
      | nil => simp at hrev
      | cons kend krest =>
        have hkend : isPySpace kend = false := by
          rw [hrev] at hl
          simpa using hl
        rw [hrev] at step2
        have step3 : (kend :: krest) <:+:
            ((List.dropWhile isPySpace u).reverse).dropWhile isPySpace :=
          infix_dropWhile_of_head kend krest _ hkend step2
        have step4 : (kend :: krest).reverse <:+: pyStrip u :=
          List.reverse_infix.mpr (by simpa [pyStrip] using step3)
        rw [← hrev] at step4
        simpa using step4


theorem containsKw_strip (u kw : List Char) (he : edgeOk kw = true) :
    containsKw (lowerL (pyStrip u)) kw = containsKw (lowerL u) kw := by
  rw [← pyStrip_lowerL]
  unfold containsKw
  exact decide_eq_decide.mpr (infix_pyStrip_iff kw (lowerL u) he)

theorem scoreCat_strip (u : List Char) (pairs : List (String × Nat))
    (hall : pairs.all (fun q => edgeOk q.1.toList) = true) :
    scoreCat (lowerL (pyStrip u)) pairs = scoreCat (lowerL u) pairs := by
  unfold scoreCat
  induction pairs generalizing u with
  | nil => rfl
  | cons q qs ih =>
    simp only [List.all_cons, Bool.and_eq_true] at hall
    simp only [List.foldl_cons]
    rw [containsKw_strip u q.1.toList hall.1]
    -- the accumulators now coincide; recurse with a generalized accumulator
    have hacc : ∀ acc : Nat,
        qs.foldl (fun acc kw =>
          if containsKw (lowerL (pyStrip u)) kw.1.toList then acc + kw.2 else acc) acc =
        qs.foldl (fun acc kw =>
          if containsKw (lowerL u) kw.1.toList then acc + kw.2 else acc) acc := by
      clear ih
      induction qs with
      | nil => intro acc; rfl
      | cons r rs ihr =>
        intro acc
        simp only [List.all_cons, Bool.and_eq_true] at hall
        simp only [List.foldl_cons]
        rw [containsKw_strip u r.1.toList hall.2.1]
        exact ihr ⟨hall.1, hall.2.2⟩ _
    exact hacc _


/-- Every keyword in the type table is non-empty with non-space edges. -/
theorem type_keywords_edgeOk :
    TYPE_KEYWORDS.all (fun p => p.2.all (fun q => edgeOk q.1.toList)) = true := by decide

theorem catScores_strip (u : List Char) :
    catScores (lowerL (pyStrip u)) = catScores (lowerL u) := by
  unfold catScores
  apply List.map_congr_left
  intro p hp
  have := (List.all_eq_true.mp type_keywords_edgeOk) p hp
  rw [scoreCat_strip u p.2 this]

/-- C9 (amended): the two classification entry points agree on every text
whose stripped length is at least 5. -/
theorem C9_classify_agree (text : List Char) (h5 : 5 ≤ (pyStrip text).length) :
    classify text = (classifyWithScore text).1 := by
  unfold classify classifyWithScore
  by_cases hs : isSpam text = true
  · rw [if_pos hs, if_pos hs]
  · rw [if_neg hs, if_neg hs]
    rw [if_neg (by omega : ¬ (pyStrip text).length < 5)]
    rw [catScores_strip text]
    by_cases hlt :
        (argmaxFirst (catScores (lowerL text))).2 < LOW_CONFIDENCE_THRESHOLD
    · rw [if_pos hlt]
      show _ = (if LOW_CONFIDENCE_THRESHOLD ≤ (argmaxFirst (catScores (lowerL text))).2
          then (argmaxFirst (catScores (lowerL text))).1 else DEFAULT_TYPE)
      rw [if_neg (by omega)]
    · rw [if_neg hlt]
      show _ = (if LOW_CONFIDENCE_THRESHOLD ≤ (argmaxFirst (catScores (lowerL text))).2
          then (argmaxFirst (catScores (lowerL text))).1 else DEFAULT_TYPE)
      rw [if_pos (by omega)]

/-- C9 counterexample: on the short text "баг", `classify` returns the
default category (stripped length < 5) while `classify_with_score` scores it
and returns the app-failure category: the two methods disagree. -/
theorem C9_counterexample :
    classify "баг".toList ≠ (classifyWithScore "баг".toList).1 := by decide

/-- C9 witness: the agreement theorem applied at "привет". -/
theorem C9_witness :
    5 ≤ (pyStrip "привет".toList).length ∧
    classify "привет".toList = (classifyWithScore "привет".toList).1 :=
  ⟨by decide, C9_classify_agree "привет".toList (by decide)⟩



/-! ## Routing invariants: helper lemmas -/

theorem bumpLoad_mrec (ms : List Manager) (i : Nat) :
    (bumpLoad ms i).map mrec = ms.map mrec := by
  induction ms generalizing i with
  | nil => rfl
  | cons m ms ih =>
    cases i with
    | zero => simp [bumpLoad, mrec]
    | succ j => simp [bumpLoad, ih]

theorem bumpLoad_sum (ms : List Manager) (i : Nat) (h : i < ms.length) :
    loadSum (bumpLoad ms i) = loadSum ms + 1 := by
  induction ms generalizing i with
  | nil => simp at h
  | cons m ms ih =>
    cases i with
    | zero => simp [bumpLoad, loadSum]; ring
    | succ j =>
      simp only [bumpLoad, loadSum, List.map_cons, List.sum_cons]
      have := ih j (by simpa using h)
      simp only [loadSum] at this
      rw [this]
      ring

theorem getOffice_preserves (e : Engine) (st : EngSt) (t : Ticket) :
    (getOffice e st t).2.managers = st.managers ∧ (getOffice e st t).2.rr = st.rr := by
  unfold getOffice
  repeat' split
  all_goals exact ⟨rfl, rfl⟩

theorem poolOf_mem {ms : List Manager} {office : String} {x : Nat × Manager}
    (h : x ∈ poolOf ms office) :
    x.1 < ms.length ∧ x.2 ∈ ms ∧ x.2.office = office := by
  unfold poolOf at h
  rcases List.mem_filter.mp h with ⟨hm, hoff⟩
  obtain ⟨i, m⟩ := x
  have hg : ms[i]? = some m := List.mk_mem_enum_iff_getElem?.mp hm
  have hlt : i < ms.length := by
    by_contra hge
    rw [List.getElem?_eq_none (by omega)] at hg
    exact Option.noConfusion hg
  refine ⟨hlt, ?_, by simpa using hoff⟩
  have : ms[i] = m := by
    have := List.getElem?_eq_getElem hlt
    rw [this] at hg
    exact Option.some.inj hg
  rw [← this]
  exact List.getElem_mem hlt


theorem applyFilters_mem {pool : Pool} {seg ty lg : String} {x : Nat × Manager}
    (hx : x ∈ applyFilters pool seg ty lg) :
    x ∈ pool ∧
    ((seg = "VIP" ∨ seg = "PRIORITY") → x.2.skills.contains "VIP" = true) ∧
    (ty = "Смена данных" → x.2.is_chief = true) ∧
    ((lg = "KZ" ∨ lg = "ENG") → x.2.skills.contains lg = true) := by
  unfold applyFilters at hx
  split_ifs at hx <;>
    simp only [List.mem_filter] at hx <;>
    refine ⟨?_, ?_, ?_, ?_⟩ <;>
    tauto

theorem mem_if_singleton {α : Type} {p f : α} {c : Prop} [Decidable c]
    (h : p ∈ (if c then [f] else [])) : p = f := by
  split at h
  · simpa using h
  · simp at h

theorem filterPasses_mem {seg ty lg : String} {p : Pool → Pool}
    (hp : p ∈ filterPasses seg ty lg) (pool : Pool) {x : Nat × Manager}
    (hx : x ∈ p pool) : x ∈ pool := by
  unfold filterPasses at hp
  simp only [List.mem_append, List.mem_singleton] at hp
  rcases hp with (hp | hp) | hp
  · rcases hp with hp | hp
    · subst hp
      exact (applyFilters_mem hx).1
    · have := mem_if_singleton hp
      subst this
      split_ifs at hx <;> simp only [List.mem_filter] at hx <;> tauto
  · have := mem_if_singleton hp
    subst this
    split_ifs at hx <;> simp only [List.mem_filter] at hx <;> tauto
  · subst hp
    exact hx

theorem firstPassHit_spec {passes : List (Pool → Pool)} {pool sub : Pool}
    (h : firstPassHit passes pool = some sub) :
    sub ≠ [] ∧ ∃ p ∈ passes, sub = p pool := by
  induction passes with
  | nil => simp [firstPassHit] at h
  | cons p ps ih =>
    simp only [firstPassHit] at h
    split_ifs at h with he
    · rcases ih h with ⟨hne, q, hq, rfl⟩
      exact ⟨hne, q, List.mem_cons_of_mem _ hq, rfl⟩
    · have hsub : sub = p pool := (Option.some.inj h).symm
      subst hsub
      exact ⟨fun hnil => he (by rw [hnil]; rfl), p, List.mem_cons_self _ _, rfl⟩

/-- The facts about `_select_manager` shared by the routing proofs. -/
theorem selectManager_spec (subset : Pool) (key : String × String) (st : EngSt)
    (h : subset ≠ []) :
    (selectManager subset key st).1 ∈ subset ∧
    (selectManager subset key st).2.managers =
      bumpLoad st.managers (selectManager subset key st).1.1 ∧
    (selectManager subset key st).2.unk = st.unk := by
  have hperm := sortPool_perm subset
  cases hs : sortPool subset with
  | nil => exact absurd (List.Perm.nil_eq (hs ▸ hperm)).symm h
  | cons m0 rest =>
    have hmem_sorted : ∀ x ∈ (m0 :: rest), x ∈ subset := by
      intro x hx
      exact (hs ▸ hperm).mem_iff.mp hx
    simp only [selectManager, hs]
    split_ifs with hbig
    · exact ⟨hmem_sorted m0 (List.mem_cons_self _ _), rfl, rfl⟩
    · have htop2len : 0 < ((m0 :: rest).take 2).length := by
        simp [List.length_take]
      have hidx : rrGet st.rr key % ((m0 :: rest).take 2).length <
          ((m0 :: rest).take 2).length := Nat.mod_lt _ htop2len
      refine ⟨?_, rfl, rfl⟩
      apply hmem_sorted
      apply List.take_subset 2
      rw [List.getD_eq_getElem _ _ hidx]
      exact List.getElem_mem hidx


/-- The outcome of the capitals scan (no-coordinates fallback). -/
theorem scanCapitals_spec (offices : List String)
    (current seg ty lg : String) (st : EngSt) :
    (∀ sel off st₁,
      scanCapitals st offices current seg ty lg = (some (sel, off), st₁) →
      sel ∈ poolOf st.managers off ∧
      st₁.managers = bumpLoad st.managers sel.1 ∧ st₁.unk = st.unk) ∧
    (∀ st₁, scanCapitals st offices current seg ty lg = (none, st₁) → st₁ = st) := by
  induction offices with
  | nil =>
    constructor
    · intro sel off st₁ hh
      simp [scanCapitals] at hh
    · intro st₁ hh
      simp [scanCapitals] at hh
      exact hh.symm
  | cons o os ih =>
    constructor
    · intro sel off st₁ hh
      unfold scanCapitals at hh
      split_ifs at hh with hcur
      · exact ih.1 sel off st₁ hh
      · cases hfp : firstPassHit (filterPasses seg ty lg) (poolOf st.managers o) with
        | none =>
          rw [hfp] at hh
          exact ih.1 sel off st₁ hh
        | some sub =>
          rw [hfp] at hh
          obtain ⟨hne, q, hq, rfl⟩ := firstPassHit_spec hfp
          have h1 := congrArg Prod.fst hh
          have h2 := congrArg Prod.snd hh
          simp only at h1 h2
          have h3 := Option.some.inj h1
          have hsel := congrArg Prod.fst h3
          have hoff : o = off := congrArg Prod.snd h3
          simp only at hsel
          have hspec := selectManager_spec (q (poolOf st.managers o)) (o, lg) st hne
          subst hoff
          refine ⟨?_, ?_, ?_⟩
          · rw [← hsel]
            exact filterPasses_mem hq _ hspec.1
          · rw [← h2, ← hsel]
            exact hspec.2.1
          · rw [← h2]
            exact hspec.2.2
    · intro st₁ hh
      unfold scanCapitals at hh
      split_ifs at hh with hcur
      · exact ih.2 st₁ hh
      · cases hfp : firstPassHit (filterPasses seg ty lg) (poolOf st.managers o) with
        | none =>
          rw [hfp] at hh
          exact ih.2 st₁ hh
        | some sub =>
          rw [hfp] at hh
          simp at hh


/-- The outcome of one relaxation pass over the offices-by-distance list. -/
theorem scanOfficesOnce_spec (p : Pool → Pool) (offices : List (String × ℚ))
    (current lg : String) (st : EngSt) :
    ∀ selSt off d,
      scanOfficesOnce st p offices current lg = some (selSt, off, d) →
      ∃ sub : Pool, sub = p (poolOf st.managers off) ∧ sub ≠ [] ∧
        selSt = selectManager sub (off, lg) st := by
  induction offices with
  | nil =>
    intro selSt off d hh
    simp [scanOfficesOnce] at hh
  | cons od os ih =>
    intro selSt off d hh
    unfold scanOfficesOnce at hh
    split_ifs at hh with hcur hemp
    · exact ih selSt off d hh
    · exact ih selSt off d hh
    · have h0 := Option.some.inj hh
      have h1 : selectManager (p (poolOf st.managers od.1)) (od.1, lg) st = selSt :=
        congrArg Prod.fst h0
      have h2 : od.1 = off := congrArg (fun x => x.2.1) h0
      subst h2
      refine ⟨p (poolOf st.managers od.1), rfl, ?_, h1.symm⟩
      intro hnil
      exact hemp (by rw [hnil]; rfl)


/-- The outcome of the pass ladder over the distance-sorted offices. -/
theorem scanPasses_spec (passes : List (Pool → Pool)) (offices : List (String × ℚ))
    (current lg : String) (st : EngSt) :
    ∀ selSt off d,
      scanPasses st passes offices current lg = some (selSt, off, d) →
      ∃ q ∈ passes, ∃ sub : Pool, sub = q (poolOf st.managers off) ∧ sub ≠ [] ∧
        selSt = selectManager sub (off, lg) st := by
  induction passes with
  | nil =>
    intro selSt off d hh
    simp [scanPasses] at hh
  | cons q qs ih =>
    intro selSt off d hh
    unfold scanPasses at hh
    cases hso : scanOfficesOnce st q offices current lg with
    | some r =>
      rw [hso] at hh
      obtain ⟨sub, hs1, hs2, hs3⟩ :=
        scanOfficesOnce_spec q offices current lg st selSt off d (hso.trans hh)
      exact ⟨q, List.mem_cons_self _ _, sub, hs1, hs2, hs3⟩
    | none =>
      rw [hso] at hh
      obtain ⟨q', hq', rest⟩ := ih selSt off d hh
      exact ⟨q', List.mem_cons_of_mem _ hq', rest⟩

/-- `_find_nearest_manager`: outcome facts used by the routing proofs. -/
theorem findNearestManager_spec (e : Engine) (st : EngSt) (t : Ticket)
    (current seg ty lg : String) :
    (∀ sel off d st₁,
      findNearestManager e st t current seg ty lg = .ok (some (sel, off, d), st₁) →
      sel ∈ poolOf st.managers off ∧
      st₁.managers = bumpLoad st.managers sel.1 ∧ st₁.unk = st.unk) ∧
    (∀ st₁, findNearestManager e st t current seg ty lg = .ok (none, st₁) → st₁ = st) := by
  constructor
  · intro sel off d st₁ hh
    unfold findNearestManager at hh
    split at hh
    · exact absurd hh (by simp)
    · -- no coordinates: capitals scan
      split at hh
      · rename_i selOff st₂ heq
        simp only [PyResult.ok.injEq, Prod.mk.injEq, Option.some.injEq] at hh
        obtain ⟨⟨hsel, hoff, hd⟩, hst⟩ := hh
        have hspec :=
          (scanCapitals_spec [astanaOffice e, almatyOffice e] current seg ty lg st).1
            selOff.1 selOff.2 st₂ heq
        subst hsel
        subst hoff
        subst hst
        exact ⟨hspec.1, hspec.2.1, hspec.2.2⟩
      · exact absurd hh (by simp)
    · -- coordinates known: pass ladder over offices by distance
      split at hh
      · rename_i x1 cpos heqc x2 selSt off2 dd heq
        simp only [PyResult.ok.injEq, Prod.mk.injEq, Option.some.injEq] at hh
        obtain ⟨⟨hsel, hoff, hd⟩, hst⟩ := hh
        obtain ⟨q, hq, sub, hsub, hne, hselSt⟩ :=
          scanPasses_spec (filterPasses seg ty lg) (officesByDist e cpos)
            current lg st selSt off2 dd heq
        have hspec := selectManager_spec sub (off2, lg) st hne
        subst hoff
        subst hst
        rw [← hsel, hselSt]
        exact ⟨filterPasses_mem hq _ (hsub ▸ hspec.1), hspec.2.1, hspec.2.2⟩
      · exact absurd hh (by simp)
  · intro st₁ hh
    unfold findNearestManager at hh
    split at hh
    · exact absurd hh (by simp)
    · split at hh
      · exact absurd hh (by simp)
      · rename_i heq
        simp only [PyResult.ok.injEq, Prod.mk.injEq] at hh
        rename_i st₂
        rw [← hh.2]
        exact (scanCapitals_spec [astanaOffice e, almatyOffice e] current seg ty lg st).2
          st₂ heq
    · split at hh
      · exact absurd hh (by simp)
      · simp only [PyResult.ok.injEq, Prod.mk.injEq] at hh
        exact hh.2.symm

/-- `hasManagerLike` only depends on the immutable manager fields. -/
theorem hasManagerLike_of_mrec_eq {ms ms' : List Manager} {t : Ticket} {row : Row}
    (hr : ms.map mrec = ms'.map mrec) (h : hasManagerLike ms t row) :
    hasManagerLike ms' t row := by
  obtain ⟨m, hm, hprops⟩ := h
  have : mrec m ∈ ms'.map mrec := by
    rw [← hr]
    exact List.mem_map_of_mem mrec hm
  obtain ⟨m', hm', hmr⟩ := List.mem_map.mp this
  refine ⟨m', hm', ?_⟩
  have h1 : m'.name = m.name := congrArg (fun x => x.1) hmr
  have h2 : m'.office = m.office := congrArg (fun x => x.2.1) hmr
  have h3 : m'.is_chief = m.is_chief := congrArg (fun x => x.2.2.1) hmr
  have h4 : m'.skills = m.skills := congrArg (fun x => x.2.2.2) hmr
  rw [h1, h2, h3, h4]
  exact hprops

/-- Manager names are determined by the immutable fields. -/
theorem names_eq_of_mrec_eq {ms ms' : List Manager}
    (h : ms.map mrec = ms'.map mrec) :
    ms.map (fun m => m.name) = ms'.map (fun m => m.name) := by
  have := congrArg (List.map (fun p : String × String × Bool × List String => p.1)) h
  simpa [List.map_map, Function.comp, mrec] using this

theorem exists_name_of_mrec_eq {ms ms' : List Manager} {n : String}
    (hr : ms.map mrec = ms'.map mrec) (h : ∃ m ∈ ms, m.name = n) :
    ∃ m' ∈ ms', m'.name = n := by
  obtain ⟨m, hm, hname⟩ := h
  have : m.name ∈ ms'.map (fun m => m.name) := by
    rw [← names_eq_of_mrec_eq hr]
    exact List.mem_map_of_mem _ hm
  obtain ⟨m', hm', hn⟩ := List.mem_map.mp this
  exact ⟨m', hm', hn.trans hname⟩


/-- Any two-argument call of `geocode` raises. -/
theorem geocodeCall_two (a b : String) : geocodeCall [a, b] = .raise .typeError := rfl

/-- `get_office` only ever reports one of its five reasons. -/
theorem getOffice_reason {e : Engine} {st : EngSt} {t : Ticket}
    {office reason : String} {dist : Option ℚ} {st₁ : EngSt}
    (h : getOffice e st t = (.ok (office, reason, dist), st₁)) :
    reason = "by_coords" ∨ reason = "by_distance" ∨ reason = "by_match" ∨
    reason = "50_50" ∨ reason = "default" := by
  unfold getOffice at h
  repeat' split at h
  all_goals
    first
    | (simp only [geocodeCall_two] at h
       simp at h
       done)
    | (simp only [Prod.mk.injEq, PyResult.ok.injEq] at h
       obtain ⟨⟨ho, hr, hd⟩, hs⟩ := h
       subst hr
       tauto)


/-- Everything the per-claim proofs need about one `distribute` iteration. -/
theorem routeTicket_spec (e : Engine) (st : EngSt) (t : Ticket) (row : Row)
    (st' : EngSt) (h : routeTicket e st t = .ok (row, st')) :
    st'.managers.map mrec = st.managers.map mrec ∧
    (row.trace.escalation = true →
      row.manager = "CAPITAL_ESCALATION" ∧ st'.managers = st.managers) ∧
    (row.trace.escalation = false →
      loadSum st'.managers = loadSum st.managers + 1 ∧
      (∃ m ∈ st'.managers, m.name = row.manager ∧ m.office = row.office) ∧
      (∃ m₀ ∈ st.managers, m₀.name = row.manager) ∧
      (row.trace.escalation_reason = none → hasManagerLike st'.managers t row)) ∧
    (row.office_reason = "nearest_office" →
      row.trace.escalation_reason = some "no_suitable_manager_in_home_office" ∧
      row.trace.escalation = false) := by
  unfold routeTicket at h
  cases hgo : getOffice e st t with
  | mk res st1 =>
    have hpres : st1.managers = st.managers ∧ st1.rr = st.rr := by
      have := getOffice_preserves e st t
      rw [hgo] at this
      exact this
    cases res with
    | raise err =>
      simp only [hgo] at h
      exact PyResult.noConfusion h
    | ok odr =>
      obtain ⟨office, officeReason, distKm⟩ := odr
      simp only [hgo] at h
      by_cases hemp :
          (applyFilters (poolOf st1.managers office) t.segment (aiType t) (aiLang t)).isEmpty = true
      · rw [if_pos hemp] at h
        cases hfn : findNearestManager e st1 t office t.segment (aiType t) (aiLang t) with
        | raise err =>
          simp only [hfn] at h
          exact PyResult.noConfusion h
        | ok pr =>
          obtain ⟨ropt, st2⟩ := pr
          cases ropt with
          | some selo =>
            obtain ⟨sel, nearOff, nearDist⟩ := selo
            simp only [hfn] at h
            simp only [PyResult.ok.injEq, Prod.mk.injEq] at h
            obtain ⟨hrow, hst⟩ := h
            subst hrow
            have hspec := (findNearestManager_spec e st1 t office t.segment (aiType t)
              (aiLang t)).1 sel nearOff nearDist st2 hfn
            obtain ⟨hselmem, hbump, hunk⟩ := hspec
            obtain ⟨hlt, hmem, hoffm⟩ := poolOf_mem hselmem
            have hroster : st'.managers.map mrec = st.managers.map mrec := by
              rw [← hst, hbump, bumpLoad_mrec, hpres.1]
            refine ⟨hroster, ?_, ?_, ?_⟩
            · intro hesc
              simp [buildRow] at hesc
            · intro _
              refine ⟨?_, ?_, ?_, ?_⟩
              · rw [← hst, hbump, bumpLoad_sum st1.managers sel.1 hlt, hpres.1]
              · have hmm : mrec sel.2 ∈ st'.managers.map mrec := by
                  rw [hroster, ← hpres.1]
                  exact List.mem_map_of_mem mrec hmem
                obtain ⟨m', hm', hmr⟩ := List.mem_map.mp hmm
                have hn : m'.name = sel.2.name := congrArg (fun x => x.1) hmr
                have ho : m'.office = sel.2.office := congrArg (fun x => x.2.1) hmr
                refine ⟨m', hm', ?_, ?_⟩
                · simp [buildRow, hn]
                · simp [buildRow, ho, hoffm]
              · refine ⟨sel.2, ?_, ?_⟩
                · rw [← hpres.1]
                  exact hmem
                · simp [buildRow]
              · intro habs
                simp [buildRow] at habs
            · intro _
              exact ⟨by simp [buildRow], by simp [buildRow]⟩
          | none =>
            simp only [hfn] at h
            simp only [PyResult.ok.injEq, Prod.mk.injEq] at h
            obtain ⟨hrow, hst⟩ := h
            subst hrow
            have hst2 : st2 = st1 := (findNearestManager_spec e st1 t office t.segment
              (aiType t) (aiLang t)).2 st2 hfn
            have hreason := getOffice_reason hgo
            refine ⟨?_, ?_, ?_, ?_⟩
            · rw [← hst, hst2, hpres.1]
            · intro _
              exact ⟨by simp [buildRow], by rw [← hst, hst2, hpres.1]⟩
            · intro hesc
              simp [buildRow] at hesc
            · intro hor
              simp only [buildRow] at hor
              rcases hreason with hr | hr | hr | hr | hr <;> rw [hr] at hor <;>
                simp at hor
      · rw [if_neg hemp] at h
        set S := applyFilters (poolOf st1.managers office) t.segment (aiType t) (aiLang t)
          with hS
        have hne : S ≠ [] := by
          intro hnil
          rw [hnil] at hemp
          exact hemp rfl
        simp only [PyResult.ok.injEq, Prod.mk.injEq] at h
        obtain ⟨hrow, hst⟩ := h
        subst hrow
        have hspec := selectManager_spec S (office, aiLang t) st1 hne
        obtain ⟨hselmem, hbump, hunk⟩ := hspec
        obtain ⟨hpool, hvip, hchief, hlang⟩ := applyFilters_mem (hS ▸ hselmem)
        obtain ⟨hlt, hmem, hoffm⟩ := poolOf_mem hpool
        have hroster : st'.managers.map mrec = st.managers.map mrec := by
          rw [← hst, hbump, bumpLoad_mrec, hpres.1]
        have hreason := getOffice_reason hgo
        refine ⟨hroster, ?_, ?_, ?_⟩
        · intro hesc
          simp [buildRow] at hesc
        · intro _
          have hmm : mrec (selectManager S (office, aiLang t) st1).1.2 ∈
              st'.managers.map mrec := by
            rw [hroster, ← hpres.1]
            exact List.mem_map_of_mem mrec hmem
          obtain ⟨m', hm', hmr⟩ := List.mem_map.mp hmm
          have hn : m'.name = (selectManager S (office, aiLang t) st1).1.2.name :=
            congrArg (fun x => x.1) hmr
          have ho : m'.office = (selectManager S (office, aiLang t) st1).1.2.office :=
            congrArg (fun x => x.2.1) hmr
          have hc : m'.is_chief = (selectManager S (office, aiLang t) st1).1.2.is_chief :=
            congrArg (fun x => x.2.2.1) hmr
          have hk : m'.skills = (selectManager S (office, aiLang t) st1).1.2.skills :=
            congrArg (fun x => x.2.2.2) hmr
          refine ⟨?_, ?_, ?_, ?_⟩
          · rw [← hst, hbump, bumpLoad_sum st1.managers _ hlt, hpres.1]
          · exact ⟨m', hm', by simp [buildRow, hn], by simp [buildRow, ho, hoffm]⟩
          · refine ⟨(selectManager S (office, aiLang t) st1).1.2, ?_, ?_⟩
            · rw [← hpres.1]
              exact hmem
            · simp [buildRow]
          · intro _
            refine ⟨m', hm', by simp [buildRow, hn], by simp [buildRow, ho, hoffm],
              ?_, ?_, ?_⟩
            · intro hseg
              rw [hk]
              exact hvip hseg
            · intro hty
              rw [hc]
              exact hchief hty
            · intro hlg
              rw [hk]
              exact hlang hlg
        · intro hor
          simp only [buildRow] at hor
          rcases hreason with hr | hr | hr | hr | hr <;> rw [hr] at hor <;>
            simp at hor


theorem exists_name_office_of_mrec_eq {ms ms' : List Manager} {n o : String}
    (hr : ms.map mrec = ms'.map mrec) (h : ∃ m ∈ ms, m.name = n ∧ m.office = o) :
    ∃ m' ∈ ms', m'.name = n ∧ m'.office = o := by
  obtain ⟨m, hm, hname, hoff⟩ := h
  have : mrec m ∈ ms'.map mrec := by
    rw [← hr]
    exact List.mem_map_of_mem mrec hm
  obtain ⟨m', hm', hmr⟩ := List.mem_map.mp this
  have h1 : m'.name = m.name := congrArg (fun x => x.1) hmr
  have h2 : m'.office = m.office := congrArg (fun x => x.2.1) hmr
  exact ⟨m', hm', h1.trans hname, h2.trans hoff⟩

/-- `rowOk` only depends on the immutable manager fields of the roster. -/
theorem rowOk_of_mrec_eq {ms ms' : List Manager} {t : Ticket} {r : Row}
    (hr : ms.map mrec = ms'.map mrec) (h : rowOk ms t r) : rowOk ms' t r := by
  obtain ⟨h1, h2, h3⟩ := h
  refine ⟨h1, ?_, h3⟩
  intro hesc
  obtain ⟨ha, hb⟩ := h2 hesc
  exact ⟨exists_name_office_of_mrec_eq hr ha,
    fun hn => hasManagerLike_of_mrec_eq hr (hb hn)⟩

theorem forall₂_mem_right {α β : Type} {R : α → β → Prop} {l₁ : List α}
    {l₂ : List β} (h : List.Forall₂ R l₁ l₂) {b : β} (hb : b ∈ l₂) :
    ∃ a ∈ l₁, R a b := by
  induction h with
  | nil => simp at hb
  | cons hr _ ih =>
    rcases List.mem_cons.mp hb with hb | hb
    · subst hb
      exact ⟨_, List.mem_cons_self _ _, hr⟩
    · obtain ⟨a, ha, har⟩ := ih hb
      exact ⟨a, List.mem_cons_of_mem _ ha, har⟩


/-- The run-level invariant of `distribute`, by induction on the tickets. -/
theorem distribute_spec (e : Engine) (ts : List Ticket) :
    ∀ st rows st', distribute e st ts = .ok (rows, st') →
    st'.managers.map mrec = st.managers.map mrec ∧
    loadSum st'.managers = loadSum st.managers +
      ((rows.filter (fun r => !r.trace.escalation)).length : Int) ∧
    List.Forall₂ (rowOk st'.managers) ts rows := by
  induction ts with
  | nil =>
    intro st rows st' h
    simp only [distribute, PyResult.ok.injEq, Prod.mk.injEq] at h
    obtain ⟨hrows, hst⟩ := h
    subst hrows
    rw [← hst]
    exact ⟨rfl, by simp, List.Forall₂.nil⟩
  | cons t rest ih =>
    intro st rows st' h
    simp only [distribute] at h
    cases hrt : routeTicket e st t with
    | raise err =>
      simp only [hrt] at h
      exact PyResult.noConfusion h
    | ok pr =>
      obtain ⟨row, st1⟩ := pr
      simp only [hrt] at h
      cases hd : distribute e st1 rest with
      | raise err =>
        simp only [hd] at h
        exact PyResult.noConfusion h
      | ok pr2 =>
        obtain ⟨rows', st2⟩ := pr2
        simp only [hd] at h
        simp only [PyResult.ok.injEq, Prod.mk.injEq] at h
        obtain ⟨hrows, hst⟩ := h
        subst hrows
        obtain ⟨hA, hB, hC, hD⟩ := routeTicket_spec e st t row st1 hrt
        obtain ⟨ihA, ihB, ihC⟩ := ih st1 rows' st2 hd
        have hok1 : rowOk st1.managers t row :=
          ⟨fun he => (hB he).1,
           fun he => ⟨(hC he).2.1, (hC he).2.2.2⟩,
           hD⟩
        refine ⟨?_, ?_, ?_⟩
        · rw [← hst]
          exact ihA.trans hA
        · rw [← hst]
          cases hesc : row.trace.escalation with
          | false =>
            have h1 := (hC hesc).1
            rw [ihB, h1]
            simp only [List.filter_cons, hesc, Bool.not_false, if_pos, List.length_cons]
            push_cast
            ring
          | true =>
            have h1 := (hB hesc).2
            rw [ihB, h1]
            simp only [List.filter_cons, hesc, Bool.not_true]
            simp
        · rw [← hst]
          exact List.Forall₂.cons (rowOk_of_mrec_eq ihA.symm hok1) ihC


/-! ## Claims C2, C4 and C10 -/

/-- C2 amended: non-sentinel assignments match their manager's office, and a
home-office assignment (escalation_reason empty) satisfies every required
filter. -/
theorem C2_required_filters (e : Engine) (st : EngSt) (ts : List Ticket)
    (rows : List Row) (st' : EngSt) (h : distribute e st ts = .ok (rows, st')) :
    List.Forall₂ (fun t r =>
      r.manager ≠ "CAPITAL_ESCALATION" →
        (∃ m ∈ st'.managers, m.name = r.manager ∧ m.office = r.office) ∧
        (r.trace.escalation_reason = none → hasManagerLike st'.managers t r))
      ts rows := by
  obtain ⟨-, -, hF⟩ := distribute_spec e ts st rows st' h
  refine hF.imp ?_
  intro t r hok hne
  obtain ⟨h1, h2, -⟩ := hok
  cases hesc : r.trace.escalation with
  | true => exact absurd (h1 hesc) hne
  | false => exact h2 hesc

theorem C2_counterexample :
    distribute engineA (initSt engineA) [ticketKZ] = .ok ([c2row], c2st) ∧
    c2row.manager = "Болат" ∧
    c2row.manager ≠ "CAPITAL_ESCALATION" ∧
    aiLang ticketKZ = "KZ" ∧
    (∀ m ∈ (initSt engineA).managers, m.skills.contains "KZ" = false) ∧
    (∀ m ∈ c2st.managers, m.skills.contains "KZ" = false) :=
  ⟨rfl, rfl, by decide, rfl, by decide, by decide⟩

theorem C2_witness :
    distribute engineB (initSt engineB) [ticketVip] = .ok ([c2wRow], c2wSt) ∧
    List.Forall₂ (fun t r =>
      r.manager ≠ "CAPITAL_ESCALATION" →
        (∃ m ∈ c2wSt.managers, m.name = r.manager ∧ m.office = r.office) ∧
        (r.trace.escalation_reason = none → hasManagerLike c2wSt.managers t r))
      [ticketVip] [c2wRow] :=
  ⟨rfl, C2_required_filters engineB (initSt engineB) [ticketVip] [c2wRow] c2wSt rfl⟩

/-- C4: over any run in which no roster manager shares the sentinel's name,
the total load increase equals the number of non-sentinel assignments. -/
theorem C4_load_accounting (e : Engine) (st : EngSt) (ts : List Ticket)
    (rows : List Row) (st' : EngSt)
    (h : distribute e st ts = .ok (rows, st'))
    (hname : ∀ m ∈ st.managers, m.name ≠ "CAPITAL_ESCALATION") :
    loadSum st'.managers = loadSum st.managers +
      ((rows.filter (fun r => r.manager != "CAPITAL_ESCALATION")).length : Int) := by
  obtain ⟨hA, hB, hF⟩ := distribute_spec e ts st rows st' h
  have hname' : ∀ m ∈ st'.managers, m.name ≠ "CAPITAL_ESCALATION" := by
    intro m hm
    obtain ⟨m0, hm0, hn0⟩ := exists_name_of_mrec_eq hA ⟨m, hm, rfl⟩
    rw [← hn0]
    exact hname m0 hm0
  have hfe : rows.filter (fun r => !r.trace.escalation) =
      rows.filter (fun r => r.manager != "CAPITAL_ESCALATION") := by
    apply List.filter_congr
    intro r hr
    obtain ⟨t, -, hok⟩ := forall₂_mem_right hF hr
    obtain ⟨h1, h2, -⟩ := hok
    cases hesc : r.trace.escalation with
    | true =>
      have hm := h1 hesc
      simp [hesc, hm]
    | false =>
      obtain ⟨⟨m, hm, hmn, -⟩, -⟩ := h2 hesc
      have hne : r.manager ≠ "CAPITAL_ESCALATION" := by
        rw [← hmn]
        exact hname' m hm
      simp [hesc, bne_iff_ne, hne]
  rw [hB, hfe]

theorem C4_witness :
    distribute engineB (initSt engineB) [ticketVip] = .ok ([c4Row], c4St) ∧
    (∀ m ∈ (initSt engineB).managers, m.name ≠ "CAPITAL_ESCALATION") ∧
    loadSum c4St.managers = loadSum (initSt engineB).managers +
      (([c4Row].filter (fun r => r.manager != "CAPITAL_ESCALATION")).length : Int) :=
  ⟨rfl, by decide,
    C4_load_accounting engineB (initSt engineB) [ticketVip] [c4Row] c4St rfl (by decide)⟩

/-- C10: a successful nearest-office fallback sets `escalation_reason` while
leaving `escalation` false, and `escalation` is true only for the sentinel. -/
theorem C10_trace_escalation (e : Engine) (st : EngSt) (t : Ticket) (row : Row)
    (st' : EngSt) (h : routeTicket e st t = .ok (row, st')) :
    (∀ office reason d st1 sel st2,
      getOffice e st t = (.ok (office, reason, d), st1) →
      (applyFilters (poolOf st1.managers office) t.segment (aiType t)
          (aiLang t)).isEmpty = true →
      findNearestManager e st1 t office t.segment (aiType t) (aiLang t) =
        .ok (some sel, st2) →
      row.trace.escalation_reason = some "no_suitable_manager_in_home_office" ∧
      row.trace.escalation = false ∧
      row.office_reason = "nearest_office") ∧
    (row.trace.escalation = true → row.manager = "CAPITAL_ESCALATION") := by
  constructor
  · intro office reason d st1 sel st2 hgo hemp hfn
    obtain ⟨sel1, nearOff, nearDist⟩ := sel
    unfold routeTicket at h
    simp only [hgo] at h
    rw [if_pos hemp] at h
    simp only [hfn] at h
    simp only [PyResult.ok.injEq, Prod.mk.injEq] at h
    obtain ⟨hrow, -⟩ := h
    subst hrow
    exact ⟨by simp [buildRow], by simp [buildRow], by simp [buildRow]⟩
  · intro hesc
    exact ((routeTicket_spec e st t row st' h).2.1 hesc).1

theorem C10_witness :
    routeTicket engineA (initSt engineA) ticketKZ = .ok (c10row, c10st) ∧
    (c10row.trace.escalation_reason = some "no_suitable_manager_in_home_office" ∧
     c10row.trace.escalation = false ∧
     c10row.office_reason = "nearest_office") :=
  ⟨rfl,
    (C10_trace_escalation engineA (initSt engineA) ticketKZ c10row c10st rfl).1
      "Астана" "by_coords" (some 0) (initSt engineA) c10sel c10st rfl rfl rfl⟩


end Fire
